import Mathlib

/-!
A shallow embedding of a small six-phase compiler (lexer, recursive-descent
parser, semantic analyzer, three-address IR generator, four-pass optimizer,
code generator, and the orchestrating compile function), translated from its
TypeScript source, together with theorems settling a list of claims about it.

JavaScript numbers are modelled as rationals (Rat); the sources folded by the
optimizer in the claims below stay within exact arithmetic, so no claim here
depends on float rounding.  JavaScript runtime values that can appear as IR
operands (strings, numbers, booleans, null, undefined, arrays of strings) are
one inductive type JSVal, because the optimizer inspects operands only through
JavaScript-level tests (typeof, startsWith, Map keys) that cannot tell a
string-valued constant from a temporary or variable name.  The arrays that
occur as IR operands (function parameter lists and call argument lists) are
always arrays of strings in the source, so arr carries a List String.
-/

/-- A JavaScript value as it occurs in tokens, AST literals and IR operands. -/
inductive JSVal where
  | str (s : String)
  | num (q : Rat)
  | jsbool (b : Bool)
  | jsnull
  | undef
  | arr (xs : List String)
deriving DecidableEq, Repr

/-- JavaScript template-literal stringification, used for CSE map keys and
code emission.  Rationals are rendered as integer text when integral and as
numerator/denominator otherwise; this rendering is injective, which is all the
optimizer's map keys rely on. -/
def jsString : JSVal → String
  | JSVal.str s => s
  | JSVal.num q => if q.den = 1 then toString q.num else toString q
  | JSVal.jsbool b => if b then "true" else "false"
  | JSVal.jsnull => "null"
  | JSVal.undef => "undefined"
  | JSVal.arr xs => String.intercalate "," xs

/-- JavaScript truthiness of a JSVal (used by the code generator's CALL case). -/
def jsTruthy : JSVal → Bool
  | JSVal.str s => s ≠ ""
  | JSVal.num q => q ≠ 0
  | JSVal.jsbool b => b
  | JSVal.jsnull => false
  | JSVal.undef => false
  | JSVal.arr _ => true

/-- Token produced by the lexer (Lexer.ts): kind, raw text, position. -/
structure Token where
  type : String
  value : String
  line : Nat
  column : Nat
deriving DecidableEq, Repr

/-- LexicalError thrown by Lexer.tokenize. -/
structure LexicalError where
  message : String
  line : Nat
  column : Nat
deriving DecidableEq, Repr

/-- Lexer.isDigit: char >= '0' and char <= '9'. -/
def lexIsDigit (c : Char) : Bool := '0' ≤ c && c ≤ '9'

/-- Lexer.isAlpha: letters and underscore. -/
def lexIsAlpha (c : Char) : Bool :=
  ('a' ≤ c && c ≤ 'z') || ('A' ≤ c && c ≤ 'Z') || c = '_'

/-- Lexer.isAlphaNumeric. -/
def lexIsAlphaNumeric (c : Char) : Bool := lexIsAlpha c || lexIsDigit c

/-- Lexer.isKeyword: the fixed keyword list. -/
def lexIsKeyword (value : String) : Bool :=
  ["if", "else", "while", "for", "return",
   "int", "float", "void", "string", "bool",
   "true", "false", "null", "function", "var"].contains value

/-- value.toUpperCase() for the ASCII keyword lexemes. -/
def strToUpper (s : String) : String := String.mk (s.data.map Char.toUpper)

/-- Lexer.addToken: the recorded column is the scanner's current column after
the lexeme minus the length of the recorded token text. -/
def addTokenAt (ty value : String) (line colAfter : Nat) : Token :=
  ⟨ty, value, line, colAfter - value.length⟩

/-- The while-loop of Lexer.identifier and Lexer.number: take the longest
prefix satisfying p. -/
def lexSpan (p : Char → Bool) (cs : List Char) : List Char × List Char :=
  (cs.takeWhile p, cs.dropWhile p)

/-- Lexer.identifier, entered after the first character c was consumed at
column col (so the scanner's column is col + 1). -/
def lexIdentToken (c : Char) (rest : List Char) (line col : Nat) :
    Token × List Char × Nat :=
  let tail := (lexSpan lexIsAlphaNumeric rest).1
  let rest' := (lexSpan lexIsAlphaNumeric rest).2
  let value := String.mk (c :: tail)
  let colAfter := col + 1 + tail.length
  (addTokenAt (if lexIsKeyword value then strToUpper value else "IDENTIFIER")
      value line colAfter, rest', colAfter)

/-- Lexer.number, entered after the first digit c was consumed at column col. -/
def lexNumberToken (c : Char) (rest : List Char) (line col : Nat) :
    Token × List Char × Nat :=
  let ds := (lexSpan lexIsDigit rest).1
  let r1 := (lexSpan lexIsDigit rest).2
  let fr : List Char × List Char :=
    match r1 with
    | '.' :: d :: r' =>
        if lexIsDigit d then
          ('.' :: d :: (lexSpan lexIsDigit r').1, (lexSpan lexIsDigit r').2)
        else ([], r1)
    | _ => ([], r1)
  let value := String.mk (c :: (ds ++ fr.1))
  let colAfter := col + 1 + ds.length + fr.1.length
  (addTokenAt "NUMBER" value line colAfter, fr.2, colAfter)

/-- Outcome of scanning a string literal body (Lexer.string). -/
inductive StrScan where
  | done (value : String) (rest : List Char) (line col : Nat)
  | unterminated (line : Nat)
deriving Repr

/-- The scan loop of Lexer.string, entered just after the opening quote with
col the column after that quote.  A newline inside the string bumps the line
and resets the column (to 1, then the advance makes it 2). -/
def lexStringLoop : List Char → Nat → Nat → String → StrScan
  | [], line, _, _ => StrScan.unterminated line
  | '"' :: rest, line, col, acc => StrScan.done acc rest line (col + 1)
  | '\n' :: rest, line, _, acc => lexStringLoop rest (line + 1) 2 (acc.push '\n')
  | ch :: rest, line, col, acc => lexStringLoop rest line (col + 1) (acc.push ch)

/-- Prepend a token to a lexing result. -/
def consTok (t : Token) :
    Except LexicalError (List Token) → Except LexicalError (List Token)
  | Except.ok ts => Except.ok (t :: ts)
  | Except.error e => Except.error e

/-- The '=' '!' '<' '>' cases of Lexer.scanToken, entered after the head
character was consumed at column col.  The TypeScript is
addToken(match('=') ? kind2 : kind1, match('=') ? twoText : oneText):
argument evaluation runs match('=') twice, and each successful call consumes
a character.  The first call picks the kind; the second looks at the NEXT
character, so for a two-character operator not followed by another '=' the
kind is the two-character kind while the recorded text is the one-character
text, with two characters consumed in total. -/
def lexOpPair (kind2 kind1 twoText oneText : String) (rest : List Char)
    (line col : Nat) : Token × List Char × Nat :=
  match rest with
  | '=' :: r2 =>
    match r2 with
    | '=' :: r3 => (addTokenAt kind2 twoText line (col + 3), r3, col + 3)
    | _ => (addTokenAt kind2 oneText line (col + 2), r2, col + 2)
  | _ => (addTokenAt kind1 oneText line (col + 1), rest, col + 1)

/-- The scan loop of Lexer.tokenize/scanToken.  The fuel only bounds the
number of iterations; every iteration consumes at least one character, so
fuel = length + 1 never runs out.  For the two-character operator heads
the TypeScript computes the token kind and token text with two separate
calls to match('='), each of which consumes a character on success: for
"==" the kind comes out EQUAL_EQUAL but the text comes out "=" (the second
match looks at the character after the operator), and for "===" the text
comes out "==" with three characters consumed. -/
def tokLoop : Nat → List Char → Nat → Nat → Except LexicalError (List Token)
  | 0, _, line, col => Except.error ⟨"out of fuel", line, col⟩
  | _ + 1, [], line, col => Except.ok [addTokenAt "EOF" "" line col]
  | fuel + 1, ch :: rest, line, col =>
    match ch, rest with
    | '(', rest => consTok (addTokenAt "LEFT_PAREN" "(" line (col + 1)) (tokLoop fuel rest line (col + 1))
    | ')', rest => consTok (addTokenAt "RIGHT_PAREN" ")" line (col + 1)) (tokLoop fuel rest line (col + 1))
    | '\x7b', rest => consTok (addTokenAt "LEFT_BRACE" "\x7b" line (col + 1)) (tokLoop fuel rest line (col + 1))
    | '\x7d', rest => consTok (addTokenAt "RIGHT_BRACE" "\x7d" line (col + 1)) (tokLoop fuel rest line (col + 1))
    | '[', rest => consTok (addTokenAt "LEFT_BRACKET" "[" line (col + 1)) (tokLoop fuel rest line (col + 1))
    | ']', rest => consTok (addTokenAt "RIGHT_BRACKET" "]" line (col + 1)) (tokLoop fuel rest line (col + 1))
    | ',', rest => consTok (addTokenAt "COMMA" "," line (col + 1)) (tokLoop fuel rest line (col + 1))
    | '.', rest => consTok (addTokenAt "DOT" "." line (col + 1)) (tokLoop fuel rest line (col + 1))
    | ';', rest => consTok (addTokenAt "SEMICOLON" ";" line (col + 1)) (tokLoop fuel rest line (col + 1))
    | '+', rest => consTok (addTokenAt "PLUS" "+" line (col + 1)) (tokLoop fuel rest line (col + 1))
    | '-', rest => consTok (addTokenAt "MINUS" "-" line (col + 1)) (tokLoop fuel rest line (col + 1))
    | '*', rest => consTok (addTokenAt "STAR" "*" line (col + 1)) (tokLoop fuel rest line (col + 1))
    | '/', '/' :: r2 =>
        tokLoop fuel (r2.dropWhile (fun c => c != '\n')) line
          (col + 2 + (r2.takeWhile (fun c => c != '\n')).length)
    | '/', rest => consTok (addTokenAt "SLASH" "/" line (col + 1)) (tokLoop fuel rest line (col + 1))
    | '=', rest =>
        let n := lexOpPair "EQUAL_EQUAL" "EQUAL" "==" "=" rest line col
        consTok n.1 (tokLoop fuel n.2.1 line n.2.2)
    | '!', rest =>
        let n := lexOpPair "BANG_EQUAL" "BANG" "!=" "!" rest line col
        consTok n.1 (tokLoop fuel n.2.1 line n.2.2)
    | '<', rest =>
        let n := lexOpPair "LESS_EQUAL" "LESS" "<=" "<" rest line col
        consTok n.1 (tokLoop fuel n.2.1 line n.2.2)
    | '>', rest =>
        let n := lexOpPair "GREATER_EQUAL" "GREATER" ">=" ">" rest line col
        consTok n.1 (tokLoop fuel n.2.1 line n.2.2)
    | ' ', rest => tokLoop fuel rest line (col + 1)
    | '\r', rest => tokLoop fuel rest line (col + 1)
    | '\t', rest => tokLoop fuel rest line (col + 1)
    | '\n', rest => tokLoop fuel rest (line + 1) 1
    | '"', rest =>
        match lexStringLoop rest line (col + 1) "" with
        | StrScan.done v r l c => consTok (addTokenAt "STRING" v l c) (tokLoop fuel r l c)
        | StrScan.unterminated l => Except.error ⟨"Unterminated string", l, col⟩
    | c, rest =>
        if lexIsDigit c then
          let n := lexNumberToken c rest line col
          consTok n.1 (tokLoop fuel n.2.1 line n.2.2)
        else if lexIsAlpha c then
          let n := lexIdentToken c rest line col
          consTok n.1 (tokLoop fuel n.2.1 line n.2.2)
        else
          Except.error ⟨"Unexpected character: " ++ String.mk [c], line, col⟩

/-- Lexer.tokenize. -/
def tokenize (source : String) : Except LexicalError (List Token) :=
  tokLoop (source.length + 1) source.data 1 1

/-- AST node (Parser.ts), a closed tagged union mirroring the record shapes
the parser builds.  assignmentExpression keeps the constant operator field
"=" that the parser stores. -/
inductive ASTNode where
  | program (body : List ASTNode)
  | variableDeclaration (name : String) (initializer : Option ASTNode)
  | functionDeclaration (name : String) (params : List String) (body : ASTNode)
  | blockStatement (body : List ASTNode)
  | expressionStatement (expression : ASTNode)
  | ifStatement (condition thenBranch : ASTNode) (elseBranch : Option ASTNode)
  | whileStatement (condition body : ASTNode)
  | forStatement (initializer condition increment : Option ASTNode) (body : ASTNode)
  | returnStatement (value : Option ASTNode)
  | binaryExpression (operator : String) (left right : ASTNode)
  | unaryExpression (operator : String) (argument : ASTNode)
  | logicalExpression (operator : String) (left right : ASTNode)
  | assignmentExpression (operator : String) (left right : ASTNode)
  | callExpression (callee : ASTNode) (arguments : List ASTNode)
  | memberExpression (object : ASTNode) (property : String)
  | ident (name : String)
  | literal (value : JSVal)
  | group (expression : ASTNode)
deriving Repr

/-- SyntaxError thrown by the parser, pointing at a token. -/
structure SynError where
  message : String
  token : Token
deriving DecidableEq, Repr

/-- parseFloat restricted to the lexeme shape digits(.digits)? that the lexer
produces for NUMBER tokens. -/
def digitsToNat (ds : List Char) : Nat :=
  ds.foldl (fun n c => n * 10 + (c.toNat - '0'.toNat)) 0

/-- parseFloat on a NUMBER lexeme, as an exact rational. -/
def parseNum (s : String) : Rat :=
  match s.splitOn "." with
  | [i] => (digitsToNat i.data : Rat)
  | [i, fr] => (digitsToNat i.data : Rat) + (digitsToNat fr.data : Rat) / ((10 : Rat) ^ fr.length)
  | _ => 0

/-- The parser's cursor over the token list (Parser.tokens / Parser.current). -/
structure PState where
  tokens : List Token
  current : Nat
deriving Repr

/-- Out-of-range reads return the EOF sentinel; the token list always ends
with EOF so the TypeScript never actually reads out of range. -/
def eofToken : Token := ⟨"EOF", "", 0, 0⟩

/-- Parser.peek. -/
def pPeek (st : PState) : Token := st.tokens.getD st.current eofToken

/-- Parser.previous. -/
def pPrevious (st : PState) : Token := st.tokens.getD (st.current - 1) eofToken

/-- Parser.isAtEnd. -/
def pIsAtEnd (st : PState) : Bool := (pPeek st).type = "EOF"

/-- Parser.advance (the cursor part; the returned token is pPrevious of the
result). -/
def pAdvance (st : PState) : PState :=
  if pIsAtEnd st then st else ⟨st.tokens, st.current + 1⟩

/-- Parser.check. -/
def pCheck (ty : String) (st : PState) : Bool :=
  if pIsAtEnd st then false else (pPeek st).type = ty

/-- Parser.match over a list of types: advance on the first type that checks. -/
def pMatch (types : List String) (st : PState) : Bool × PState :=
  if types.any (fun ty => pCheck ty st) then (true, pAdvance st) else (false, st)

/-- Parser.consume: advance past a token of the given type or fail with a
SyntaxError at the current token. -/
def pConsume (ty msg : String) (st : PState) : Except SynError (Token × PState) :=
  if pCheck ty st then
    let st' := pAdvance st
    Except.ok (pPrevious st', st')
  else Except.error ⟨msg, pPeek st⟩

/-- Fuel exhaustion marker; with fuel proportional to the token count the
recursive-descent functions below never reach it on the inputs used here. -/
def pFuelErr {α : Type} (st : PState) : Except SynError α :=
  Except.error ⟨"out of fuel", pPeek st⟩

mutual

/-- Parser.program: collect declarations until EOF.  Parser.declaration wraps
each element in try/catch whose handler runs synchronize() and re-throws the
same error, so the first escaping SyntaxError still aborts the whole parse;
the resynchronization is therefore unobservable in the parse result and is
not modelled separately. -/
def pProgramLoop : Nat → PState → List ASTNode → Except SynError (List ASTNode × PState)
  | 0, st, _ => pFuelErr st
  | f + 1, st, acc =>
    if pIsAtEnd st then Except.ok (acc.reverse, st)
    else do
      let (d, st') ← pDeclaration f st
      pProgramLoop f st' (d :: acc)

/-- Parser.declaration. -/
def pDeclaration : Nat → PState → Except SynError (ASTNode × PState)
  | 0, st => pFuelErr st
  | f + 1, st =>
    let m := pMatch ["VAR"] st
    if m.1 then pVarDeclaration f m.2
    else
      let m2 := pMatch ["FUNCTION"] st
      if m2.1 then pFunctionDeclaration f m2.2
      else pStatement f st

/-- Parser.varDeclaration (VAR already consumed). -/
def pVarDeclaration : Nat → PState → Except SynError (ASTNode × PState)
  | 0, st => pFuelErr st
  | f + 1, st => do
    let (name, st1) ← pConsume "IDENTIFIER" "Expect variable name." st
    let m := pMatch ["EQUAL"] st1
    if m.1 then do
      let (ini, st2) ← pExpression f m.2
      let (_, st3) ← pConsume "SEMICOLON" "Expect ';' after variable declaration." st2
      Except.ok (ASTNode.variableDeclaration name.value (some ini), st3)
    else do
      let (_, st3) ← pConsume "SEMICOLON" "Expect ';' after variable declaration." st1
      Except.ok (ASTNode.variableDeclaration name.value none, st3)

/-- Parser.functionDeclaration (FUNCTION already consumed).  The 255-parameter
check calls this.error(...) without throwing, so it has no observable effect
and is not modelled. -/
def pFunctionDeclaration : Nat → PState → Except SynError (ASTNode × PState)
  | 0, st => pFuelErr st
  | f + 1, st => do
    let (name, st1) ← pConsume "IDENTIFIER" "Expect function name." st
    let (_, st2) ← pConsume "LEFT_PAREN" "Expect '(' after function name." st1
    let (params, st3) ←
      if pCheck "RIGHT_PAREN" st2 then Except.ok (([] : List String), st2)
      else pParamsLoop f st2 []
    let (_, st4) ← pConsume "RIGHT_PAREN" "Expect ')' after parameters." st3
    let (_, st5) ← pConsume "LEFT_BRACE" "Expect '\x7b' before function body." st4
    let (body, st6) ← pBlock f st5
    Except.ok (ASTNode.functionDeclaration name.value params body, st6)

/-- The do-while parameter loop of Parser.functionDeclaration. -/
def pParamsLoop : Nat → PState → List String → Except SynError (List String × PState)
  | 0, st, _ => pFuelErr st
  | f + 1, st, acc => do
    let (tok, st1) ← pConsume "IDENTIFIER" "Expect parameter name." st
    let m := pMatch ["COMMA"] st1
    if m.1 then pParamsLoop f m.2 (tok.value :: acc)
    else Except.ok ((tok.value :: acc).reverse, st1)

/-- Parser.statement. -/
def pStatement : Nat → PState → Except SynError (ASTNode × PState)
  | 0, st => pFuelErr st
  | f + 1, st =>
    let mIf := pMatch ["IF"] st
    if mIf.1 then pIfStatement f mIf.2
    else
      let mW := pMatch ["WHILE"] st
      if mW.1 then pWhileStatement f mW.2
      else
        let mF := pMatch ["FOR"] st
        if mF.1 then pForStatement f mF.2
        else
          let mR := pMatch ["RETURN"] st
          if mR.1 then pReturnStatement f mR.2
          else
            let mB := pMatch ["LEFT_BRACE"] st
            if mB.1 then pBlock f mB.2
            else pExpressionStatement f st

/-- Parser.ifStatement (IF already consumed). -/
def pIfStatement : Nat → PState → Except SynError (ASTNode × PState)
  | 0, st => pFuelErr st
  | f + 1, st => do
    let (_, st1) ← pConsume "LEFT_PAREN" "Expect '(' after 'if'." st
    let (cond, st2) ← pExpression f st1
    let (_, st3) ← pConsume "RIGHT_PAREN" "Expect ')' after if condition." st2
    let (thenB, st4) ← pStatement f st3
    let m := pMatch ["ELSE"] st4
    if m.1 then do
      let (elseB, st5) ← pStatement f m.2
      Except.ok (ASTNode.ifStatement cond thenB (some elseB), st5)
    else Except.ok (ASTNode.ifStatement cond thenB none, st4)

/-- Parser.whileStatement (WHILE already consumed). -/
def pWhileStatement : Nat → PState → Except SynError (ASTNode × PState)
  | 0, st => pFuelErr st
  | f + 1, st => do
    let (_, st1) ← pConsume "LEFT_PAREN" "Expect '(' after 'while'." st
    let (cond, st2) ← pExpression f st1
    let (_, st3) ← pConsume "RIGHT_PAREN" "Expect ')' after condition." st2
    let (body, st4) ← pStatement f st3
    Except.ok (ASTNode.whileStatement cond body, st4)

/-- Parser.forStatement (FOR already consumed). -/
def pForStatement : Nat → PState → Except SynError (ASTNode × PState)
  | 0, st => pFuelErr st
  | f + 1, st => do
    let (_, st1) ← pConsume "LEFT_PAREN" "Expect '(' after 'for'." st
    let mSemi := pMatch ["SEMICOLON"] st1
    let (ini, st2) ←
      if mSemi.1 then Except.ok ((none : Option ASTNode), mSemi.2)
      else
        let mVar := pMatch ["VAR"] st1
        if mVar.1 then do
          let (d, s) ← pVarDeclaration f mVar.2
          Except.ok (some d, s)
        else do
          let (d, s) ← pExpressionStatement f st1
          Except.ok (some d, s)
    let (cond, st3) ←
      if pCheck "SEMICOLON" st2 then Except.ok ((none : Option ASTNode), st2)
      else do
        let (c, s) ← pExpression f st2
        Except.ok (some c, s)
    let (_, st4) ← pConsume "SEMICOLON" "Expect ';' after loop condition." st3
    let (inc, st5) ←
      if pCheck "RIGHT_PAREN" st4 then Except.ok ((none : Option ASTNode), st4)
      else do
        let (c, s) ← pExpression f st4
        Except.ok (some c, s)
    let (_, st6) ← pConsume "RIGHT_PAREN" "Expect ')' after for clauses." st5
    let (body, st7) ← pStatement f st6
    Except.ok (ASTNode.forStatement ini cond inc body, st7)

/-- Parser.returnStatement (RETURN already consumed). -/
def pReturnStatement : Nat → PState → Except SynError (ASTNode × PState)
  | 0, st => pFuelErr st
  | f + 1, st => do
    let (v, st1) ←
      if pCheck "SEMICOLON" st then Except.ok ((none : Option ASTNode), st)
      else do
        let (c, s) ← pExpression f st
        Except.ok (some c, s)
    let (_, st2) ← pConsume "SEMICOLON" "Expect ';' after return value." st1
    Except.ok (ASTNode.returnStatement v, st2)

/-- Parser.block (LEFT_BRACE already consumed). -/
def pBlock : Nat → PState → Except SynError (ASTNode × PState)
  | 0, st => pFuelErr st
  | f + 1, st => do
    let (stmts, st1) ← pBlockLoop f st []
    let (_, st2) ← pConsume "RIGHT_BRACE" "Expect '\x7d' after block." st1
    Except.ok (ASTNode.blockStatement stmts, st2)

/-- The statement loop of Parser.block. -/
def pBlockLoop : Nat → PState → List ASTNode → Except SynError (List ASTNode × PState)
  | 0, st, _ => pFuelErr st
  | f + 1, st, acc =>
    if !(pCheck "RIGHT_BRACE" st) && !(pIsAtEnd st) then do
      let (d, st') ← pDeclaration f st
      pBlockLoop f st' (d :: acc)
    else Except.ok (acc.reverse, st)

/-- Parser.expressionStatement. -/
def pExpressionStatement : Nat → PState → Except SynError (ASTNode × PState)
  | 0, st => pFuelErr st
  | f + 1, st => do
    let (e, st1) ← pExpression f st
    let (_, st2) ← pConsume "SEMICOLON" "Expect ';' after expression." st1
    Except.ok (ASTNode.expressionStatement e, st2)

/-- Parser.expression. -/
def pExpression : Nat → PState → Except SynError (ASTNode × PState)
  | 0, st => pFuelErr st
  | f + 1, st => pAssignment f st

/-- Parser.assignment.  When the left side is not a bare identifier the
TypeScript calls this.error(equals, "Invalid assignment target.") which only
CONSTRUCTS the SyntaxError and discards it (no throw), then falls through to
return the left-hand expression: the assignment is silently dropped. -/
def pAssignment : Nat → PState → Except SynError (ASTNode × PState)
  | 0, st => pFuelErr st
  | f + 1, st => do
    let (expr, st1) ← pLogicalOr f st
    let m := pMatch ["EQUAL"] st1
    if m.1 then do
      let (value, st2) ← pAssignment f m.2
      match expr with
      | ASTNode.ident n =>
          Except.ok (ASTNode.assignmentExpression "=" (ASTNode.ident n) value, st2)
      | _ => Except.ok (expr, st2)
    else Except.ok (expr, st1)

/-- Parser.logicalOr. -/
def pLogicalOr : Nat → PState → Except SynError (ASTNode × PState)
  | 0, st => pFuelErr st
  | f + 1, st => do
    let (e, st1) ← pLogicalAnd f st
    pLogicalOrLoop f st1 e

/-- The while-loop of Parser.logicalOr. -/
def pLogicalOrLoop : Nat → PState → ASTNode → Except SynError (ASTNode × PState)
  | 0, st, _ => pFuelErr st
  | f + 1, st, expr =>
    let m := pMatch ["OR"] st
    if m.1 then do
      let op := (pPrevious m.2).value
      let (right, st2) ← pLogicalAnd f m.2
      pLogicalOrLoop f st2 (ASTNode.logicalExpression op expr right)
    else Except.ok (expr, st)

/-- Parser.logicalAnd. -/
def pLogicalAnd : Nat → PState → Except SynError (ASTNode × PState)
  | 0, st => pFuelErr st
  | f + 1, st => do
    let (e, st1) ← pEquality f st
    pLogicalAndLoop f st1 e

/-- The while-loop of Parser.logicalAnd. -/
def pLogicalAndLoop : Nat → PState → ASTNode → Except SynError (ASTNode × PState)
  | 0, st, _ => pFuelErr st
  | f + 1, st, expr =>
    let m := pMatch ["AND"] st
    if m.1 then do
      let op := (pPrevious m.2).value
      let (right, st2) ← pEquality f m.2
      pLogicalAndLoop f st2 (ASTNode.logicalExpression op expr right)
    else Except.ok (expr, st)

/-- Parser.equality. -/
def pEquality : Nat → PState → Except SynError (ASTNode × PState)
  | 0, st => pFuelErr st
  | f + 1, st => do
    let (e, st1) ← pComparison f st
    pEqualityLoop f st1 e

/-- The while-loop of Parser.equality; the operator recorded is the matched
token's value. -/
def pEqualityLoop : Nat → PState → ASTNode → Except SynError (ASTNode × PState)
  | 0, st, _ => pFuelErr st
  | f + 1, st, expr =>
    let m := pMatch ["BANG_EQUAL", "EQUAL_EQUAL"] st
    if m.1 then do
      let op := (pPrevious m.2).value
      let (right, st2) ← pComparison f m.2
      pEqualityLoop f st2 (ASTNode.binaryExpression op expr right)
    else Except.ok (expr, st)

/-- Parser.comparison. -/
def pComparison : Nat → PState → Except SynError (ASTNode × PState)
  | 0, st => pFuelErr st
  | f + 1, st => do
    let (e, st1) ← pTerm f st
    pComparisonLoop f st1 e

/-- The while-loop of Parser.comparison. -/
def pComparisonLoop : Nat → PState → ASTNode → Except SynError (ASTNode × PState)
  | 0, st, _ => pFuelErr st
  | f + 1, st, expr =>
    let m := pMatch ["GREATER", "GREATER_EQUAL", "LESS", "LESS_EQUAL"] st
    if m.1 then do
      let op := (pPrevious m.2).value
      let (right, st2) ← pTerm f m.2
      pComparisonLoop f st2 (ASTNode.binaryExpression op expr right)
    else Except.ok (expr, st)

/-- Parser.term. -/
def pTerm : Nat → PState → Except SynError (ASTNode × PState)
  | 0, st => pFuelErr st
  | f + 1, st => do
    let (e, st1) ← pFactor f st
    pTermLoop f st1 e

/-- The while-loop of Parser.term. -/
def pTermLoop : Nat → PState → ASTNode → Except SynError (ASTNode × PState)
  | 0, st, _ => pFuelErr st
  | f + 1, st, expr =>
    let m := pMatch ["MINUS", "PLUS"] st
    if m.1 then do
      let op := (pPrevious m.2).value
      let (right, st2) ← pFactor f m.2
      pTermLoop f st2 (ASTNode.binaryExpression op expr right)
    else Except.ok (expr, st)

/-- Parser.factor. -/
def pFactor : Nat → PState → Except SynError (ASTNode × PState)
  | 0, st => pFuelErr st
  | f + 1, st => do
    let (e, st1) ← pUnary f st
    pFactorLoop f st1 e

/-- The while-loop of Parser.factor. -/
def pFactorLoop : Nat → PState → ASTNode → Except SynError (ASTNode × PState)
  | 0, st, _ => pFuelErr st
  | f + 1, st, expr =>
    let m := pMatch ["SLASH", "STAR"] st
    if m.1 then do
      let op := (pPrevious m.2).value
      let (right, st2) ← pUnary f m.2
      pFactorLoop f st2 (ASTNode.binaryExpression op expr right)
    else Except.ok (expr, st)

/-- Parser.unary. -/
def pUnary : Nat → PState → Except SynError (ASTNode × PState)
  | 0, st => pFuelErr st
  | f + 1, st =>
    let m := pMatch ["BANG", "MINUS"] st
    if m.1 then do
      let op := (pPrevious m.2).value
      let (right, st2) ← pUnary f m.2
      Except.ok (ASTNode.unaryExpression op right, st2)
    else pCall f st

/-- Parser.call. -/
def pCall : Nat → PState → Except SynError (ASTNode × PState)
  | 0, st => pFuelErr st
  | f + 1, st => do
    let (e, st1) ← pPrimary f st
    pCallLoop f st1 e

/-- The postfix loop of Parser.call: call arguments or member access. -/
def pCallLoop : Nat → PState → ASTNode → Except SynError (ASTNode × PState)
  | 0, st, _ => pFuelErr st
  | f + 1, st, expr =>
    let mP := pMatch ["LEFT_PAREN"] st
    if mP.1 then do
      let (e2, st2) ← pFinishCall f mP.2 expr
      pCallLoop f st2 e2
    else
      let mD := pMatch ["DOT"] st
      if mD.1 then do
        let (name, st2) ← pConsume "IDENTIFIER" "Expect property name after '.'." mD.2
        pCallLoop f st2 (ASTNode.memberExpression expr name.value)
      else Except.ok (expr, st)

/-- Parser.finishCall (LEFT_PAREN already consumed).  As with parameters, the
255-argument check constructs an error without throwing it. -/
def pFinishCall : Nat → PState → ASTNode → Except SynError (ASTNode × PState)
  | 0, st, _ => pFuelErr st
  | f + 1, st, callee => do
    let (args, st1) ←
      if pCheck "RIGHT_PAREN" st then Except.ok (([] : List ASTNode), st)
      else pArgsLoop f st []
    let (_, st2) ← pConsume "RIGHT_PAREN" "Expect ')' after arguments." st1
    Except.ok (ASTNode.callExpression callee args, st2)

/-- The do-while argument loop of Parser.finishCall. -/
def pArgsLoop : Nat → PState → List ASTNode → Except SynError (List ASTNode × PState)
  | 0, st, _ => pFuelErr st
  | f + 1, st, acc => do
    let (a, st1) ← pExpression f st
    let m := pMatch ["COMMA"] st1
    if m.1 then pArgsLoop f m.2 (a :: acc)
    else Except.ok ((a :: acc).reverse, st1)

/-- Parser.primary. -/
def pPrimary : Nat → PState → Except SynError (ASTNode × PState)
  | 0, st => pFuelErr st
  | f + 1, st =>
    let mF := pMatch ["FALSE"] st
    if mF.1 then Except.ok (ASTNode.literal (JSVal.jsbool false), mF.2)
    else
      let mT := pMatch ["TRUE"] st
      if mT.1 then Except.ok (ASTNode.literal (JSVal.jsbool true), mT.2)
      else
        let mN := pMatch ["NULL"] st
        if mN.1 then Except.ok (ASTNode.literal JSVal.jsnull, mN.2)
        else
          let mNum := pMatch ["NUMBER"] st
          if mNum.1 then
            Except.ok (ASTNode.literal (JSVal.num (parseNum (pPrevious mNum.2).value)), mNum.2)
          else
            let mS := pMatch ["STRING"] st
            if mS.1 then Except.ok (ASTNode.literal (JSVal.str (pPrevious mS.2).value), mS.2)
            else
              let mI := pMatch ["IDENTIFIER"] st
              if mI.1 then Except.ok (ASTNode.ident (pPrevious mI.2).value, mI.2)
              else
                let mP := pMatch ["LEFT_PAREN"] st
                if mP.1 then do
                  let (e, st2) ← pExpression f mP.2
                  let (_, st3) ← pConsume "RIGHT_PAREN" "Expect ')' after expression." st2
                  Except.ok (ASTNode.group e, st3)
                else Except.error ⟨"Expect expression.", pPeek st⟩

end

/-- Parser.parse: run program() with ample fuel. -/
def parse (tokens : List Token) : Except SynError ASTNode := do
  let (body, _) ← pProgramLoop (10 * tokens.length + 10) ⟨tokens, 0⟩ []
  Except.ok (ASTNode.program body)

/-- A symbol-table entry (SemanticAnalyzer.ts SymbolTable values). -/
structure SymInfo where
  type : String
  initialized : Bool
  used : Bool
deriving DecidableEq, Repr

/-- A scope: names to entries, kept in insertion order (JavaScript object
string keys enumerate in insertion order). -/
abbrev Scope := List (String × SymInfo)

/-- The analyzer's instance state: the pushed outer scopes (head = innermost)
and the current scope.  The error list is threaded separately because
analyze() resets it on entry; the scopes are NOT reset by analyze(). -/
structure AnState where
  scopes : List Scope
  currentScope : Scope
deriving DecidableEq, Repr

/-- The state after the SemanticAnalyzer constructor, which runs enterScope()
once: one pushed empty scope and an empty current scope. -/
def initAnState : AnState := ⟨[[]], []⟩

/-- Object key lookup in one scope. -/
def scopeGet (sc : Scope) (name : String) : Option SymInfo :=
  (sc.find? (fun p => p.1 == name)).map (fun p => p.2)

/-- Replace the entry for a present key, keeping its position. -/
def scopeUpdate (sc : Scope) (name : String) (fn : SymInfo → SymInfo) : Scope :=
  sc.map (fun p => if p.1 == name then (p.1, fn p.2) else p)

/-- JavaScript object assignment: overwrite in place or append. -/
def scopeAssign (sc : Scope) (name : String) (info : SymInfo) : Scope :=
  if (scopeGet sc name).isSome then scopeUpdate sc name (fun _ => info)
  else sc ++ [(name, info)]

/-- The outer-scope part of SemanticAnalyzer.lookupVariable: scan pushed
scopes innermost first. -/
def lookupScopes : List Scope → String → Option SymInfo
  | [], _ => none
  | sc :: rest, name =>
    match scopeGet sc name with
    | some i => some i
    | none => lookupScopes rest name

/-- SemanticAnalyzer.lookupVariable: current scope first, then outer scopes. -/
def anLookup (st : AnState) (name : String) : Option SymInfo :=
  match scopeGet st.currentScope name with
  | some i => some i
  | none => lookupScopes st.scopes name

/-- Update the entry the TypeScript lookup would have returned a live
reference to (mutation through the reference): the current scope if the name
is there, otherwise the innermost outer scope holding it. -/
def updateScopes : List Scope → String → (SymInfo → SymInfo) → List Scope
  | [], _, _ => []
  | sc :: rest, name, fn =>
    if (scopeGet sc name).isSome then scopeUpdate sc name fn :: rest
    else sc :: updateScopes rest name fn

/-- Mutate the looked-up entry, wherever it lives. -/
def anUpdate (st : AnState) (name : String) (fn : SymInfo → SymInfo) : AnState :=
  if (scopeGet st.currentScope name).isSome then
    ⟨st.scopes, scopeUpdate st.currentScope name fn⟩
  else ⟨updateScopes st.scopes name fn, st.currentScope⟩

/-- SemanticAnalyzer.enterScope. -/
def anEnterScope (st : AnState) : AnState := ⟨st.currentScope :: st.scopes, []⟩

/-- SemanticAnalyzer.exitScope: report every still-unused binding of the
closing scope, then pop (or fall back to an empty scope, scopes.pop() || {}). -/
def anExitScope (st : AnState) (errs : List String) : AnState × List String :=
  let unusedErrs := st.currentScope.filterMap (fun p =>
    if p.2.used then none
    else some ("Variable '" ++ p.1 ++ "' is declared but never used"))
  match st.scopes with
  | top :: rest => (⟨rest, top⟩, errs ++ unusedErrs)
  | [] => (⟨[], []⟩, errs ++ unusedErrs)

mutual

/-- SemanticAnalyzer.visit: dispatch on the node kind.  Errors are appended
in push order.  The default console.warn branch is unreachable because the
ASTNode union is closed. -/
def anVisit : ASTNode → AnState → List String → AnState × List String
  | ASTNode.program body, st, errs => anVisitList body st errs
  | ASTNode.variableDeclaration name ini, st, errs =>
    let (st1, errs1) :=
      if (scopeGet st.currentScope name).isSome then
        (st, errs ++ ["Variable '" ++ name ++ "' already declared in this scope"])
      else
        (⟨st.scopes,
          scopeAssign st.currentScope name ⟨"variable", ini.isSome, false⟩⟩, errs)
    anVisitOpt ini st1 errs1
  | ASTNode.functionDeclaration name params body, st, errs =>
    let (st1, errs1) :=
      if (scopeGet st.currentScope name).isSome then
        (st, errs ++ ["Function '" ++ name ++ "' already declared in this scope"])
      else
        (⟨st.scopes, scopeAssign st.currentScope name ⟨"function", true, false⟩⟩, errs)
    let st2 := anEnterScope st1
    let st3 : AnState := ⟨st2.scopes,
      params.foldl (fun sc param => scopeAssign sc param ⟨"parameter", true, false⟩)
        st2.currentScope⟩
    let (st4, errs4) := anVisit body st3 errs1
    let paramErrs := st4.currentScope.filterMap (fun p =>
      if p.2.type == "parameter" && !p.2.used then
        some ("Parameter '" ++ p.1 ++ "' is never used")
      else none)
    let (st5, errs5) := anExitScope st4 (errs4 ++ paramErrs)
    (st5, errs5)
  | ASTNode.blockStatement body, st, errs =>
    let (st1, errs1) := anVisitList body (anEnterScope st) errs
    anExitScope st1 errs1
  | ASTNode.expressionStatement e, st, errs => anVisit e st errs
  | ASTNode.ifStatement cond thenB elseB, st, errs =>
    let (st1, errs1) := anVisit cond st errs
    let (st2, errs2) := anVisit thenB st1 errs1
    anVisitOpt elseB st2 errs2
  | ASTNode.whileStatement cond body, st, errs =>
    let (st1, errs1) := anVisit cond st errs
    anVisit body st1 errs1
  | ASTNode.forStatement ini cond inc body, st, errs =>
    let st0 := anEnterScope st
    let (st1, errs1) := anVisitOpt ini st0 errs
    let (st2, errs2) := anVisitOpt cond st1 errs1
    let (st3, errs3) := anVisitOpt inc st2 errs2
    let (st4, errs4) := anVisit body st3 errs3
    anExitScope st4 errs4
  | ASTNode.returnStatement v, st, errs => anVisitOpt v st errs
  | ASTNode.binaryExpression _ l r, st, errs =>
    let (st1, errs1) := anVisit l st errs
    anVisit r st1 errs1
  | ASTNode.unaryExpression _ a, st, errs => anVisit a st errs
  | ASTNode.logicalExpression _ l r, st, errs =>
    let (st1, errs1) := anVisit l st errs
    anVisit r st1 errs1
  | ASTNode.assignmentExpression _ l r, st, errs =>
    let (st1, errs1) :=
      match l with
      | ASTNode.ident name =>
        match anLookup st name with
        | none => (st, errs ++ ["Variable '" ++ name ++ "' used before declaration"])
        | some _ => (anUpdate st name (fun i => ⟨i.type, true, i.used⟩), errs)
      | _ => anVisit l st errs
    anVisit r st1 errs1
  | ASTNode.callExpression callee args, st, errs =>
    let (st1, errs1) := anVisit callee st errs
    let (st2, errs2) :=
      match callee with
      | ASTNode.ident name =>
        match anLookup st1 name with
        | none => (st1, errs1 ++ ["Function '" ++ name ++ "' called before declaration"])
        | some i =>
          if i.type ≠ "function" then
            (st1, errs1 ++ ["'" ++ name ++ "' is not a function"])
          else (anUpdate st1 name (fun j => ⟨j.type, j.initialized, true⟩), errs1)
      | _ => (st1, errs1)
    anVisitList args st2 errs2
  | ASTNode.memberExpression obj _, st, errs => anVisit obj st errs
  | ASTNode.ident name, st, errs =>
    (match anLookup st name with
     | none => (st, errs ++ ["Variable '" ++ name ++ "' used before declaration"])
     | some i =>
       let st1 := anUpdate st name (fun j => ⟨j.type, j.initialized, true⟩)
       if !i.initialized then
         (st1, errs ++ ["Variable '" ++ name ++ "' used before initialization"])
       else (st1, errs))
  | ASTNode.literal _, st, errs => (st, errs)
  | ASTNode.group e, st, errs => anVisit e st errs

/-- Statement-list traversal (program bodies, block bodies, call arguments). -/
def anVisitList : List ASTNode → AnState → List String → AnState × List String
  | [], st, errs => (st, errs)
  | n :: ns, st, errs =>
    let (st1, errs1) := anVisit n st errs
    anVisitList ns st1 errs1

/-- Optional-child traversal. -/
def anVisitOpt : Option ASTNode → AnState → List String → AnState × List String
  | none, st, errs => (st, errs)
  | some n, st, errs => anVisit n st errs

end

/-- SemanticAnalyzer.analyze: resets only the error list, then visits; the
scope stack carries over from the instance state. -/
def analyze (st : AnState) (ast : ASTNode) : List String × AnState :=
  let r := anVisit ast st []
  (r.2, r.1)

/-- A three-address IR instruction (IRGenerator.ts IRInstruction). -/
structure Instr where
  op : String
  args : List JSVal
deriving DecidableEq, Repr

/-- IRGenerationError: message plus the offending node. -/
structure IRGenError where
  message : String
  node : ASTNode
deriving Repr

/-- IRGenerator instance state: emitted instructions and the two counters,
all reset at the start of each generate() call. -/
structure GenState where
  instructions : List Instr
  tempCounter : Nat
  labelCounter : Nat
deriving Repr

/-- IRGenerator.emit. -/
def gEmit (g : GenState) (op : String) (args : List JSVal) : GenState :=
  ⟨g.instructions ++ [⟨op, args⟩], g.tempCounter, g.labelCounter⟩

/-- IRGenerator.createTemp. -/
def gTemp (g : GenState) : String × GenState :=
  ("t" ++ toString g.tempCounter, ⟨g.instructions, g.tempCounter + 1, g.labelCounter⟩)

/-- IRGenerator.createLabel. -/
def gLabel (g : GenState) (pre : String) : String × GenState :=
  (pre ++ "_" ++ toString g.labelCounter, ⟨g.instructions, g.tempCounter, g.labelCounter + 1⟩)

mutual

/-- IRGenerator.generateIR: returns the temporary (or variable) holding the
value, or the empty marker for statements. -/
def genIR : ASTNode → GenState → Except IRGenError (String × GenState)
  | ASTNode.program body, g => do
    let g1 ← genSeq body g
    Except.ok ("", g1)
  | ASTNode.variableDeclaration name ini, g =>
    (match ini with
     | some init => do
       let (valueTemp, g1) ← genIR init g
       Except.ok (name, gEmit g1 "STORE" [JSVal.str valueTemp, JSVal.str name])
     | none => Except.ok (name, gEmit g "DECLARE" [JSVal.str name]))
  | ASTNode.functionDeclaration name params body, g => do
    let g1 := gEmit g "FUNCTION_START" [JSVal.str name, JSVal.arr params]
    let (_, g2) ← genIR body g1
    Except.ok (name, gEmit g2 "FUNCTION_END" [JSVal.str name])
  | ASTNode.blockStatement body, g => do
    let g1 ← genSeq body (gEmit g "BLOCK_START" [])
    Except.ok ("", gEmit g1 "BLOCK_END" [])
  | ASTNode.expressionStatement e, g => do
    let (_, g1) ← genIR e g
    Except.ok ("", g1)
  | ASTNode.ifStatement cond thenB elseB, g => do
    let (condTemp, g1) ← genIR cond g
    let (elseLabel, g2) := gLabel g1 "else"
    let (endLabel, g3) := gLabel g2 "endif"
    let g4 := gEmit g3 "JUMP_IF_FALSE" [JSVal.str condTemp, JSVal.str elseLabel]
    let (_, g5) ← genIR thenB g4
    let g6 := gEmit (gEmit g5 "JUMP" [JSVal.str endLabel]) "LABEL" [JSVal.str elseLabel]
    let g7 ←
      match elseB with
      | some e => do
        let (_, ge) ← genIR e g6
        Except.ok ge
      | none => Except.ok g6
    Except.ok ("", gEmit g7 "LABEL" [JSVal.str endLabel])
  | ASTNode.whileStatement cond body, g => do
    let (startLabel, g1) := gLabel g "while"
    let (endLabel, g2) := gLabel g1 "endwhile"
    let g3 := gEmit g2 "LABEL" [JSVal.str startLabel]
    let (condTemp, g4) ← genIR cond g3
    let g5 := gEmit g4 "JUMP_IF_FALSE" [JSVal.str condTemp, JSVal.str endLabel]
    let (_, g6) ← genIR body g5
    let g7 := gEmit (gEmit g6 "JUMP" [JSVal.str startLabel]) "LABEL" [JSVal.str endLabel]
    Except.ok ("", g7)
  | ASTNode.forStatement ini cond inc body, g => do
    let (startLabel, g1) := gLabel g "for"
    let (updateLabel, g2) := gLabel g1 "forupdate"
    let (endLabel, g3) := gLabel g2 "endfor"
    let g4 ←
      match ini with
      | some i => do
        let (_, gi) ← genIR i g3
        Except.ok gi
      | none => Except.ok g3
    let g5 := gEmit g4 "LABEL" [JSVal.str startLabel]
    let g6 ←
      match cond with
      | some c => do
        let (condTemp, gc) ← genIR c g5
        Except.ok (gEmit gc "JUMP_IF_FALSE" [JSVal.str condTemp, JSVal.str endLabel])
      | none => Except.ok g5
    let (_, g7) ← genIR body g6
    let g8 := gEmit g7 "LABEL" [JSVal.str updateLabel]
    let g9 ←
      match inc with
      | some i => do
        let (_, gi) ← genIR i g8
        Except.ok gi
      | none => Except.ok g8
    let g10 := gEmit (gEmit g9 "JUMP" [JSVal.str startLabel]) "LABEL" [JSVal.str endLabel]
    Except.ok ("", g10)
  | ASTNode.returnStatement v, g =>
    (match v with
     | some e => do
       let (valueTemp, g1) ← genIR e g
       Except.ok ("", gEmit g1 "RETURN" [JSVal.str valueTemp])
     | none => Except.ok ("", gEmit g "RETURN" []))
  | ASTNode.binaryExpression op l r, g => do
    let (leftTemp, g1) ← genIR l g
    let (rightTemp, g2) ← genIR r g1
    let (resultTemp, g3) := gTemp g2
    let operation ←
      match op with
      | "+" => Except.ok "ADD"
      | "-" => Except.ok "SUB"
      | "*" => Except.ok "MUL"
      | "/" => Except.ok "DIV"
      | "==" => Except.ok "EQ"
      | "!=" => Except.ok "NEQ"
      | "<" => Except.ok "LT"
      | "<=" => Except.ok "LTE"
      | ">" => Except.ok "GT"
      | ">=" => Except.ok "GTE"
      | _ => Except.error ⟨"Unknown binary operator: " ++ op, ASTNode.binaryExpression op l r⟩
    Except.ok (resultTemp,
      gEmit g3 operation [JSVal.str leftTemp, JSVal.str rightTemp, JSVal.str resultTemp])
  | ASTNode.unaryExpression op a, g => do
    let (argTemp, g1) ← genIR a g
    let (resultTemp, g2) := gTemp g1
    match op with
    | "-" => Except.ok (resultTemp, gEmit g2 "NEG" [JSVal.str argTemp, JSVal.str resultTemp])
    | "!" => Except.ok (resultTemp, gEmit g2 "NOT" [JSVal.str argTemp, JSVal.str resultTemp])
    | _ => Except.error ⟨"Unknown unary operator: " ++ op, ASTNode.unaryExpression op a⟩
  | ASTNode.logicalExpression op l r, g => do
    let (resultTemp, g1) := gTemp g
    if op == "&&" then do
      let (leftTemp, g2) ← genIR l g1
      let (skipLabel, g3) := gLabel g2 "and_skip"
      let g4 := gEmit (gEmit g3 "COPY" [JSVal.str leftTemp, JSVal.str resultTemp])
        "JUMP_IF_FALSE" [JSVal.str leftTemp, JSVal.str skipLabel]
      let (rightTemp, g5) ← genIR r g4
      let g6 := gEmit (gEmit g5 "COPY" [JSVal.str rightTemp, JSVal.str resultTemp])
        "LABEL" [JSVal.str skipLabel]
      Except.ok (resultTemp, g6)
    else if op == "||" then do
      let (leftTemp, g2) ← genIR l g1
      let (skipLabel, g3) := gLabel g2 "or_skip"
      let g4 := gEmit (gEmit g3 "COPY" [JSVal.str leftTemp, JSVal.str resultTemp])
        "JUMP_IF_TRUE" [JSVal.str leftTemp, JSVal.str skipLabel]
      let (rightTemp, g5) ← genIR r g4
      let g6 := gEmit (gEmit g5 "COPY" [JSVal.str rightTemp, JSVal.str resultTemp])
        "LABEL" [JSVal.str skipLabel]
      Except.ok (resultTemp, g6)
    else
      Except.error ⟨"Unknown logical operator: " ++ op, ASTNode.logicalExpression op l r⟩
  | ASTNode.assignmentExpression op l r, g => do
    let (rightTemp, g1) ← genIR r g
    match l with
    | ASTNode.ident varName =>
      Except.ok (rightTemp, gEmit g1 "STORE" [JSVal.str rightTemp, JSVal.str varName])
    | ASTNode.memberExpression obj prop => do
      let (objectTemp, g2) ← genIR obj g1
      Except.ok (rightTemp,
        gEmit g2 "STORE_PROP" [JSVal.str objectTemp, JSVal.str prop, JSVal.str rightTemp])
    | _ => Except.error ⟨"Invalid assignment target", ASTNode.assignmentExpression op l r⟩
  | ASTNode.callExpression callee args, g => do
    let (argTemps, g1) ← genArgs args g
    let (resultTemp, g2) := gTemp g1
    match callee with
    | ASTNode.ident funcName =>
      Except.ok (resultTemp,
        gEmit g2 "CALL" [JSVal.str funcName, JSVal.arr argTemps, JSVal.str resultTemp])
    | _ => do
      let (calleeTemp, g3) ← genIR callee g2
      Except.ok (resultTemp,
        gEmit g3 "CALL_INDIRECT" [JSVal.str calleeTemp, JSVal.arr argTemps, JSVal.str resultTemp])
  | ASTNode.memberExpression obj prop, g => do
    let (objectTemp, g1) ← genIR obj g
    let (resultTemp, g2) := gTemp g1
    Except.ok (resultTemp,
      gEmit g2 "LOAD_PROP" [JSVal.str objectTemp, JSVal.str prop, JSVal.str resultTemp])
  | ASTNode.ident name, g =>
    let (resultTemp, g1) := gTemp g
    Except.ok (resultTemp, gEmit g1 "LOAD" [JSVal.str name, JSVal.str resultTemp])
  | ASTNode.literal v, g =>
    let (resultTemp, g1) := gTemp g
    Except.ok (resultTemp, gEmit g1 "CONST" [v, JSVal.str resultTemp])
  | ASTNode.group e, g => genIR e g

/-- Statement sequencing for Program and BlockStatement bodies. -/
def genSeq : List ASTNode → GenState → Except IRGenError GenState
  | [], g => Except.ok g
  | n :: ns, g => do
    let (_, g1) ← genIR n g
    genSeq ns g1

/-- The argument loop of IRGenerator.generateCallExpression. -/
def genArgs : List ASTNode → GenState → Except IRGenError (List String × GenState)
  | [], g => Except.ok ([], g)
  | a :: as_, g => do
    let (t, g1) ← genIR a g
    let (ts, g2) ← genArgs as_ g1
    Except.ok (t :: ts, g2)

end

/-- IRGenerator.generate: fresh instruction list and counters per call. -/
def irGenerate (ast : ASTNode) : Except IRGenError (List Instr) := do
  let (_, g) ← genIR ast ⟨[], 0, 0⟩
  Except.ok g.instructions

/-- JavaScript array indexing instr.args[n]: out-of-range reads undefined. -/
def argN (i : Instr) (n : Nat) : JSVal := i.args.getD n JSVal.undef

/-- A JavaScript Map with arbitrary keys (the optimizer uses Map<string, any>
but inserts whatever values instruction operands hold, so keys are JSVals
compared with SameValueZero, here structural equality). -/
abbrev CMap := List (JSVal × JSVal)

/-- Map.get. -/
def cmGet (m : CMap) (k : JSVal) : Option JSVal :=
  (m.find? (fun p => p.1 == k)).map (fun p => p.2)

/-- Map.has. -/
def cmHas (m : CMap) (k : JSVal) : Bool := (cmGet m k).isSome

/-- Map.set: overwrite in place or append. -/
def cmSet (m : CMap) (k v : JSVal) : CMap :=
  if cmHas m k then m.map (fun p => if p.1 == k then (k, v) else p)
  else m ++ [(k, v)]

/-- Map.delete. -/
def cmDel (m : CMap) (k : JSVal) : CMap := m.filter (fun p => p.1 != k)

/-- The binary opcodes handled by constant folding and CSE. -/
def isBinOp (op : String) : Bool :=
  ["ADD", "SUB", "MUL", "DIV", "EQ", "NEQ", "LT", "LTE", "GT", "GTE"].contains op

/-- Optimizer.findPreviousConstInstr: nearest prior CONST whose destination
operand equals tempVar, scanning linearly backward in the pass's input list. -/
def findPreviousConstInstr (ir : List Instr) (currentIndex : Nat) (tempVar : JSVal) :
    Option Instr :=
  ((ir.take currentIndex).reverse).find? (fun i => i.op == "CONST" && argN i 1 == tempVar)

/-- The numeric folding switch of Optimizer.constantFolding.  DIV is exact
rational division here; JavaScript float division differs only on division by
zero and rounding, which the claims below never exercise. -/
def foldBinary (op : String) (v1 v2 : Rat) : JSVal :=
  if op == "ADD" then JSVal.num (v1 + v2)
  else if op == "SUB" then JSVal.num (v1 - v2)
  else if op == "MUL" then JSVal.num (v1 * v2)
  else if op == "DIV" then JSVal.num (v1 / v2)
  else if op == "EQ" then JSVal.jsbool (v1 == v2)
  else if op == "NEQ" then JSVal.jsbool (v1 != v2)
  else if op == "LT" then JSVal.jsbool (decide (v1 < v2))
  else if op == "LTE" then JSVal.jsbool (decide (v1 ≤ v2))
  else if op == "GT" then JSVal.jsbool (decide (v2 < v1))
  else if op == "GTE" then JSVal.jsbool (decide (v2 ≤ v1))
  else JSVal.undef

/-- The unary folding switch (NEG/NOT) on a numeric or boolean constant.
JavaScript coerces: -true is -1, -false is -0 (modelled 0), !q tests q
against 0. -/
def foldUnary (op : String) (v : JSVal) : JSVal :=
  if op == "NEG" then
    match v with
    | JSVal.num q => JSVal.num (-q)
    | JSVal.jsbool b => JSVal.num (if b then -1 else 0)
    | _ => JSVal.undef
  else if op == "NOT" then
    match v with
    | JSVal.num q => JSVal.jsbool (q == 0)
    | JSVal.jsbool b => JSVal.jsbool !b
    | _ => JSVal.undef
  else JSVal.undef

/-- One folding decision at position i of the input list: some replacement
CONST if the instruction folds, none otherwise. -/
def cfStep (ir : List Instr) (i : Nat) (instr : Instr) : Option Instr :=
  if isBinOp instr.op then
    match findPreviousConstInstr ir i (argN instr 0),
          findPreviousConstInstr ir i (argN instr 1) with
    | some p1, some p2 =>
      match argN p1 0, argN p2 0 with
      | JSVal.num v1, JSVal.num v2 =>
          some ⟨"CONST", [foldBinary instr.op v1 v2, argN instr 2]⟩
      | _, _ => none
    | _, _ => none
  else if instr.op == "NEG" || instr.op == "NOT" then
    match findPreviousConstInstr ir i (argN instr 0) with
    | some p =>
      match argN p 0 with
      | JSVal.num q => some ⟨"CONST", [foldUnary instr.op (JSVal.num q), argN instr 1]⟩
      | JSVal.jsbool b => some ⟨"CONST", [foldUnary instr.op (JSVal.jsbool b), argN instr 1]⟩
      | _ => none
    | _ => none
  else none

/-- The index loop of Optimizer.constantFolding over the original list ir. -/
def cfLoop (ir : List Instr) : List Instr → Nat → List Instr × Bool
  | [], _ => ([], false)
  | instr :: rest, i =>
    let r := cfLoop ir rest (i + 1)
    match cfStep ir i instr with
    | some folded => (folded :: r.1, true)
    | none => (instr :: r.1, r.2)

/-- Optimizer.constantFolding. -/
def constantFolding (ir : List Instr) : List Instr × Bool := cfLoop ir ir 0

/-- Optimizer.deadCodeElimination, first pass: the labels set (collected but
never consulted by the removal loop, which only asks about jump targets). -/
def collectLabels (ir : List Instr) : List JSVal :=
  ir.filterMap (fun i => if i.op == "LABEL" then some (argN i 0) else none)

/-- JUMP/JUMP_IF_TRUE/JUMP_IF_FALSE. -/
def isJumpOp (op : String) : Bool :=
  ["JUMP", "JUMP_IF_TRUE", "JUMP_IF_FALSE"].contains op

/-- The keys of the jumps map: targets of every jump instruction (operand 0
for JUMP, operand 1 otherwise). -/
def collectJumpTargets (ir : List Instr) : List JSVal :=
  ir.filterMap (fun i =>
    if isJumpOp i.op then some (argN i (if i.op == "JUMP" then 0 else 1)) else none)

/-- arg.startsWith of the reserved prefix: a single-character prefix check,
so it is the first character being 't'. -/
def startsWithT (s : String) : Bool :=
  match s.data with
  | c :: _ => c == 't'
  | [] => false

/-- The per-instruction extraction of candidate used names: string arguments
whose first character is 't' (arg.startsWith of the source). -/
def usedArgsOf (i : Instr) : List String :=
  i.args.filterMap (fun a =>
    match a with
    | JSVal.str s => if startsWithT s then some s else none
    | _ => none)

/-- Optimizer.deadCodeElimination, second pass: a name is marked used when it
appears as a string argument starting with "t" of an instruction whose opcode
is neither STORE nor CONST; all arguments of STORE and CONST instructions
(including the STORE source) are skipped, and array arguments are not
strings so call argument lists never mark anything. -/
def collectUsedVars (ir : List Instr) : List String :=
  (ir.filter (fun i => i.op != "STORE" && i.op != "CONST")).foldl
    (fun acc i => acc ++ usedArgsOf i) []

/-- The drop test of the removal loop: an unused "t"-prefixed string
destination of STORE/CONST, or a LABEL no jump targets. -/
def dceDrop (used : List String) (jumpTargets : List JSVal) (instr : Instr) : Bool :=
  if instr.op == "STORE" || instr.op == "CONST" then
    match argN instr 1 with
    | JSVal.str s => startsWithT s && !(used.contains s)
    | _ => false
  else if instr.op == "LABEL" then !(jumpTargets.contains (argN instr 0))
  else false

/-- The removal loop of Optimizer.deadCodeElimination. -/
def dceLoop (used : List String) (jumps : List JSVal) : List Instr → List Instr × Bool
  | [] => ([], false)
  | i :: rest =>
    let r := dceLoop used jumps rest
    if dceDrop used jumps i then (r.1, true) else (i :: r.1, r.2)

/-- Optimizer.deadCodeElimination. -/
def deadCodeElimination (ir : List Instr) : List Instr × Bool :=
  dceLoop (collectUsedVars ir) (collectJumpTargets ir) ir

/-- The argument-substitution step of Optimizer.constantPropagation: a string
argument that is a key of the constants map is replaced by its value. -/
def cpSubstArg (m : CMap) (a : JSVal) : JSVal :=
  match a with
  | JSVal.str s => (cmGet m (JSVal.str s)).getD (JSVal.str s)
  | _ => a

/-- Whether an argument triggers instrChanged: a string argument that is a
key of the map, even when the substituted value equals the argument itself. -/
def cpArgHit (m : CMap) (a : JSVal) : Bool :=
  match a with
  | JSVal.str s => cmHas m (JSVal.str s)
  | _ => false

/-- Substitute an instruction's arguments; the flag is instrChanged. -/
def cpSubstInstr (m : CMap) (instr : Instr) : Instr × Bool :=
  if instr.args.any (cpArgHit m) then
    (⟨instr.op, instr.args.map (cpSubstArg m)⟩, true)
  else (instr, false)

/-- The loop of Optimizer.constantPropagation: bookkeeping first (CONST
records its destination; STORE records or forgets; LOAD of a known name is
rewritten to a CONST and skips substitution entirely; scope-entry markers
clear the map, but no marker ever restores it), then substitution with the
updated map. -/
def cpGo (m : CMap) : List Instr → List Instr × Bool
  | [] => ([], false)
  | instr :: rest =>
    if instr.op == "CONST" then
      let m1 := cmSet m (argN instr 1) (argN instr 0)
      let s := cpSubstInstr m1 instr
      let r := cpGo m1 rest
      (s.1 :: r.1, s.2 || r.2)
    else if instr.op == "STORE" then
      let m1 :=
        if (match argN instr 0 with
            | JSVal.str _ => cmHas m (argN instr 0)
            | _ => false) then
          cmSet m (argN instr 1) ((cmGet m (argN instr 0)).getD JSVal.undef)
        else cmDel m (argN instr 1)
      let s := cpSubstInstr m1 instr
      let r := cpGo m1 rest
      (s.1 :: r.1, s.2 || r.2)
    else if instr.op == "LOAD" then
      if cmHas m (argN instr 0) then
        let r := cpGo m rest
        (⟨"CONST", [(cmGet m (argN instr 0)).getD JSVal.undef, argN instr 1]⟩ :: r.1, true)
      else
        let s := cpSubstInstr m instr
        let r := cpGo m rest
        (s.1 :: r.1, s.2 || r.2)
    else if instr.op == "BLOCK_START" || instr.op == "FUNCTION_START" then
      let s := cpSubstInstr [] instr
      let r := cpGo [] rest
      (s.1 :: r.1, s.2 || r.2)
    else
      let s := cpSubstInstr m instr
      let r := cpGo m rest
      (s.1 :: r.1, s.2 || r.2)

/-- Optimizer.constantPropagation. -/
def constantPropagation (ir : List Instr) : List Instr × Bool := cpGo [] ir

/-- The CSE key: a template string over the opcode and the stringified first
two operands, exactly as the source interpolates them. -/
def cseKey (instr : Instr) : String :=
  instr.op ++ "(" ++ jsString (argN instr 0) ++ "," ++ jsString (argN instr 1) ++ ")"

/-- expressions.get on the CSE map (string keys, operand values). -/
def emGet (m : List (String × JSVal)) (k : String) : Option JSVal :=
  (m.find? (fun p => p.1 == k)).map (fun p => p.2)

/-- expressions.set. -/
def emSet (m : List (String × JSVal)) (k : String) (v : JSVal) : List (String × JSVal) :=
  if (emGet m k).isSome then m.map (fun p => if p.1 == k then (k, v) else p)
  else m ++ [(k, v)]

/-- The loop of Optimizer.commonSubexpressionElimination. -/
def cseGo (m : List (String × JSVal)) : List Instr → List Instr × Bool
  | [] => ([], false)
  | instr :: rest =>
    if isBinOp instr.op then
      match emGet m (cseKey instr) with
      | some prev =>
        let r := cseGo m rest
        (⟨"COPY", [prev, argN instr 2]⟩ :: r.1, true)
      | none =>
        let r := cseGo (emSet m (cseKey instr) (argN instr 2)) rest
        (instr :: r.1, r.2)
    else if ["STORE", "CALL", "FUNCTION_START", "BLOCK_START"].contains instr.op then
      let r := cseGo [] rest
      (instr :: r.1, r.2)
    else
      let r := cseGo m rest
      (instr :: r.1, r.2)

/-- Optimizer.commonSubexpressionElimination. -/
def commonSubexpressionElimination (ir : List Instr) : List Instr × Bool := cseGo [] ir

/-- One pass application inside Optimizer.optimize's round: the working list
is replaced only when the pass reports a change. -/
def applyPass (p : List Instr → List Instr × Bool) (acc : List Instr × Bool) :
    List Instr × Bool :=
  let r := p acc.1
  if r.2 then (r.1, true) else acc

/-- One full round of the four passes in source order. -/
def runRound (ir : List Instr) : List Instr × Bool :=
  applyPass commonSubexpressionElimination
    (applyPass constantPropagation
      (applyPass deadCodeElimination
        (applyPass constantFolding (ir, false))))

/-- Optimizer.optimize with explicit fuel: the TypeScript while(changed) loop
run for at most the given number of rounds.  none models the loop still
running (the source has no bound; see the termination claim). -/
def optimizeFuel : Nat → List Instr → Option (List Instr)
  | 0, _ => none
  | n + 1, ir =>
    let r := runRound ir
    if r.2 then optimizeFuel n r.1 else some r.1

/-- CodeGenerationError: message plus the offending instruction. -/
structure CGError where
  message : String
  instruction : Instr
deriving DecidableEq, Repr

/-- CodeGenerator instance state (the variables map of the source is declared
and cleared but never written or read, so it is not modelled). -/
structure CGState where
  output : List String
  indentLevel : Nat
deriving Repr

/-- The two-space indent string. -/
def cgIndent (n : Nat) : String := String.join (List.replicate n "  ")

/-- CodeGenerator.emitLine. -/
def cgEmitLine (st : CGState) (line : String) (extraIndent : Nat := 0) : CGState :=
  ⟨st.output ++ [cgIndent (st.indentLevel + extraIndent) ++ line], st.indentLevel⟩

/-- CodeGenerator.formatValue: null, undefined, quoted strings, and the
default String(value) conversion for everything else. -/
def formatValue (v : JSVal) : String :=
  match v with
  | JSVal.jsnull => "null"
  | JSVal.undef => "undefined"
  | JSVal.str s => "\"" ++ s ++ "\""
  | _ => jsString v

/-- instr.args[i].join(", "): only ever reached with an array operand in
generator-produced IR. -/
def jsJoinComma (v : JSVal) : String :=
  match v with
  | JSVal.arr xs => String.intercalate ", " xs
  | _ => jsString v

/-- CodeGenerator.processInstruction.  FUNCTION_END/BLOCK_END decrement the
indent level (saturating here; the generator balances starts and ends so the
TypeScript never goes negative on generator-produced IR). -/
def cgProcess (st : CGState) (instr : Instr) : Except CGError CGState :=
  if instr.op == "FUNCTION_START" then
    let st1 := cgEmitLine st ("function " ++ jsString (argN instr 0) ++ "(" ++ jsJoinComma (argN instr 1) ++ ") \x7b")
    Except.ok ⟨st1.output, st1.indentLevel + 1⟩
  else if instr.op == "FUNCTION_END" then
    let st1 : CGState := ⟨st.output, st.indentLevel - 1⟩
    Except.ok (cgEmitLine (cgEmitLine st1 "\x7d") "")
  else if instr.op == "BLOCK_START" then
    let st1 := cgEmitLine st "\x7b"
    Except.ok ⟨st1.output, st1.indentLevel + 1⟩
  else if instr.op == "BLOCK_END" then
    Except.ok (cgEmitLine ⟨st.output, st.indentLevel - 1⟩ "\x7d")
  else if instr.op == "DECLARE" then
    Except.ok (cgEmitLine st ("let " ++ jsString (argN instr 0) ++ ";"))
  else if instr.op == "CONST" then
    Except.ok (cgEmitLine st ("let " ++ jsString (argN instr 1) ++ " = " ++ formatValue (argN instr 0) ++ ";"))
  else if instr.op == "LOAD" then
    Except.ok (cgEmitLine st ("let " ++ jsString (argN instr 1) ++ " = " ++ jsString (argN instr 0) ++ ";"))
  else if instr.op == "STORE" then
    Except.ok (cgEmitLine st (jsString (argN instr 1) ++ " = " ++ jsString (argN instr 0) ++ ";"))
  else if instr.op == "LOAD_PROP" then
    Except.ok (cgEmitLine st ("let " ++ jsString (argN instr 2) ++ " = " ++ jsString (argN instr 0) ++ "." ++ jsString (argN instr 1) ++ ";"))
  else if instr.op == "STORE_PROP" then
    Except.ok (cgEmitLine st (jsString (argN instr 0) ++ "." ++ jsString (argN instr 1) ++ " = " ++ jsString (argN instr 2) ++ ";"))
  else if instr.op == "ADD" then
    Except.ok (cgEmitLine st ("let " ++ jsString (argN instr 2) ++ " = " ++ jsString (argN instr 0) ++ " + " ++ jsString (argN instr 1) ++ ";"))
  else if instr.op == "SUB" then
    Except.ok (cgEmitLine st ("let " ++ jsString (argN instr 2) ++ " = " ++ jsString (argN instr 0) ++ " - " ++ jsString (argN instr 1) ++ ";"))
  else if instr.op == "MUL" then
    Except.ok (cgEmitLine st ("let " ++ jsString (argN instr 2) ++ " = " ++ jsString (argN instr 0) ++ " * " ++ jsString (argN instr 1) ++ ";"))
  else if instr.op == "DIV" then
    Except.ok (cgEmitLine st ("let " ++ jsString (argN instr 2) ++ " = " ++ jsString (argN instr 0) ++ " / " ++ jsString (argN instr 1) ++ ";"))
  else if instr.op == "NEG" then
    Except.ok (cgEmitLine st ("let " ++ jsString (argN instr 1) ++ " = -" ++ jsString (argN instr 0) ++ ";"))
  else if instr.op == "NOT" then
    Except.ok (cgEmitLine st ("let " ++ jsString (argN instr 1) ++ " = !" ++ jsString (argN instr 0) ++ ";"))
  else if instr.op == "EQ" then
    Except.ok (cgEmitLine st ("let " ++ jsString (argN instr 2) ++ " = " ++ jsString (argN instr 0) ++ " === " ++ jsString (argN instr 1) ++ ";"))
  else if instr.op == "NEQ" then
    Except.ok (cgEmitLine st ("let " ++ jsString (argN instr 2) ++ " = " ++ jsString (argN instr 0) ++ " !== " ++ jsString (argN instr 1) ++ ";"))
  else if instr.op == "LT" then
    Except.ok (cgEmitLine st ("let " ++ jsString (argN instr 2) ++ " = " ++ jsString (argN instr 0) ++ " < " ++ jsString (argN instr 1) ++ ";"))
  else if instr.op == "LTE" then
    Except.ok (cgEmitLine st ("let " ++ jsString (argN instr 2) ++ " = " ++ jsString (argN instr 0) ++ " <= " ++ jsString (argN instr 1) ++ ";"))
  else if instr.op == "GT" then
    Except.ok (cgEmitLine st ("let " ++ jsString (argN instr 2) ++ " = " ++ jsString (argN instr 0) ++ " > " ++ jsString (argN instr 1) ++ ";"))
  else if instr.op == "GTE" then
    Except.ok (cgEmitLine st ("let " ++ jsString (argN instr 2) ++ " = " ++ jsString (argN instr 0) ++ " >= " ++ jsString (argN instr 1) ++ ";"))
  else if instr.op == "COPY" then
    Except.ok (cgEmitLine st ("let " ++ jsString (argN instr 1) ++ " = " ++ jsString (argN instr 0) ++ ";"))
  else if instr.op == "LABEL" then
    Except.ok (cgEmitLine st (jsString (argN instr 0) ++ ":"))
  else if instr.op == "JUMP" then
    Except.ok (cgEmitLine st ("goto " ++ jsString (argN instr 0) ++ ";"))
  else if instr.op == "JUMP_IF_TRUE" then
    Except.ok (cgEmitLine st ("if (" ++ jsString (argN instr 0) ++ ") goto " ++ jsString (argN instr 1) ++ ";"))
  else if instr.op == "JUMP_IF_FALSE" then
    Except.ok (cgEmitLine st ("if (!" ++ jsString (argN instr 0) ++ ") goto " ++ jsString (argN instr 1) ++ ";"))
  else if instr.op == "CALL" || instr.op == "CALL_INDIRECT" then
    if jsTruthy (argN instr 2) then
      Except.ok (cgEmitLine st ("let " ++ jsString (argN instr 2) ++ " = " ++ jsString (argN instr 0) ++ "(" ++ jsJoinComma (argN instr 1) ++ ");"))
    else
      Except.ok (cgEmitLine st (jsString (argN instr 0) ++ "(" ++ jsJoinComma (argN instr 1) ++ ");"))
  else if instr.op == "RETURN" then
    if instr.args.length > 0 then
      Except.ok (cgEmitLine st ("return " ++ jsString (argN instr 0) ++ ";"))
    else
      Except.ok (cgEmitLine st "return;")
  else
    Except.error ⟨"Unknown instruction: " ++ instr.op, instr⟩

/-- CodeGenerator.generate: the fixed preamble, then one (sometimes two)
lines per instruction, joined with newlines. -/
def codeGenerate (ir : List Instr) : Except CGError String := do
  let st0 : CGState := ⟨[], 0⟩
  let st1 := cgEmitLine (cgEmitLine st0 "// Generated JavaScript code") "// This is a simplified target language"
  let st2 := cgEmitLine (cgEmitLine st1 "") "// Runtime functions"
  let st3 := cgEmitLine st2 "function printValue(value) \x7b"
  let st4 := cgEmitLine st3 "console.log(value);" 1
  let st5 := cgEmitLine (cgEmitLine st4 "\x7d") ""
  let stF ← ir.foldlM cgProcess st5
  Except.ok (String.intercalate "\n" stF.output)

/-- A diagnostic record of CompilationResult.errors. -/
structure Diagnostic where
  phase : String
  message : String
  line : Option Nat
  column : Option Nat
deriving DecidableEq, Repr

/-- Compiler.ts CompilationResult. -/
structure CompilationResult where
  success : Bool
  tokens : Option (List Token)
  ast : Option ASTNode
  ir : Option (List Instr)
  optimizedIr : Option (List Instr)
  code : Option String
  errors : List Diagnostic
deriving Repr

/-- Compiler.compile on an instance whose semantic analyzer is in state st
(the analyzer is constructed once per Compiler and its scope stack persists
across compile calls; everything else is fresh or reset per call).  The fuel
bounds only the optimizer's fixpoint loop; none models a compile call that
never returns because that loop spins. -/
def compileSt (fuel : Nat) (st : AnState) (source : String) :
    Option (CompilationResult × AnState) :=
  match tokenize source with
  | Except.error e =>
    some (⟨false, none, none, none, none, none,
      [⟨"Lexical Analysis", e.message, some e.line, some e.column⟩]⟩, st)
  | Except.ok tokens =>
    match parse tokens with
    | Except.error e =>
      some (⟨false, some tokens, none, none, none, none,
        [⟨"Syntax Analysis", e.message, some e.token.line, some e.token.column⟩]⟩, st)
    | Except.ok ast =>
      let r := analyze st ast
      if r.1.isEmpty then
        match irGenerate ast with
        | Except.error e =>
          some (⟨false, some tokens, some ast, none, none, none,
            [⟨"IR Generation", e.message, none, none⟩]⟩, r.2)
        | Except.ok ir =>
          match optimizeFuel fuel ir with
          | none => none
          | some optimizedIr =>
            match codeGenerate optimizedIr with
            | Except.error e =>
              some (⟨false, some tokens, some ast, some ir, some optimizedIr, none,
                [⟨"Code Generation", e.message, none, none⟩]⟩, r.2)
            | Except.ok code =>
              some (⟨true, some tokens, some ast, some ir, some optimizedIr, some code, []⟩, r.2)
      else
        some (⟨false, some tokens, some ast, none, none, none,
          r.1.map (fun m => ⟨"Semantic Analysis", m, none, none⟩)⟩, r.2)

/-- new Compiler().compile(source): a fresh instance. -/
def compile (fuel : Nat) (source : String) : Option (CompilationResult × AnState) :=
  compileSt fuel initAnState source

/-! Concrete inputs used by the claims below. -/

/-- The three-instruction constant-folding example of the spec. -/
def c2Input : List Instr :=
  [⟨"CONST", [JSVal.num 2, JSVal.str "t0"]⟩,
   ⟨"CONST", [JSVal.num 3, JSVal.str "t1"]⟩,
   ⟨"ADD", [JSVal.str "t0", JSVal.str "t1", JSVal.str "t2"]⟩]

/-- A CONST whose string value equals its own destination name: constant
propagation substitutes the argument by itself and still reports a change,
every round, so the fixpoint loop of optimize never exits on this list. -/
def c4Bad : List Instr := [⟨"CONST", [JSVal.str "x", JSVal.str "x"]⟩]

/-- The token list of "var x; var x;". -/
def c1Tokens : List Token :=
  [⟨"VAR", "var", 1, 1⟩, ⟨"IDENTIFIER", "x", 1, 5⟩, ⟨"SEMICOLON", ";", 1, 6⟩,
   ⟨"VAR", "var", 1, 8⟩, ⟨"IDENTIFIER", "x", 1, 12⟩, ⟨"SEMICOLON", ";", 1, 13⟩,
   ⟨"EOF", "", 1, 14⟩]

/-- The AST of "var x; var x;". -/
def c1Ast : ASTNode :=
  ASTNode.program
    [ASTNode.variableDeclaration "x" none, ASTNode.variableDeclaration "x" none]

/-- A source that declares a global variable and compiles cleanly. -/
def c8Src : String := "var x = 1; x = 2;"

/-- Tokenize then parse, forgetting which phase failed (used to state facts
about the parse of a source literal). -/
def parseSource (s : String) : Option ASTNode :=
  (tokenize s).toOption.bind (fun t => (parse t).toOption)

/-! Library of facts about the embedding, shared by the claim theorems. -/

theorem optimizeFuel_succ (n : Nat) (ir : List Instr) :
    optimizeFuel (n + 1) ir =
      if (runRound ir).2 then optimizeFuel n (runRound ir).1
      else some (runRound ir).1 := rfl

theorem applyPass_snd_false {p : List Instr → List Instr × Bool}
    {acc : List Instr × Bool} (h : (applyPass p acc).2 = false) :
    applyPass p acc = acc ∧ acc.2 = false := by
  unfold applyPass at *
  by_cases hc : (p acc.1).2
  · simp [hc] at h
  · simp [hc] at h ⊢
    exact h

/-- A quiet round leaves the list unchanged: a pass that reports no change
does not replace the working list. -/
theorem runRound_snd_false {ir : List Instr} (h : (runRound ir).2 = false) :
    runRound ir = (ir, false) := by
  unfold runRound at *
  obtain ⟨h4, h3'⟩ := applyPass_snd_false h
  obtain ⟨h3, h2'⟩ := applyPass_snd_false h3'
  obtain ⟨h2, h1'⟩ := applyPass_snd_false h2'
  obtain ⟨h1, _⟩ := applyPass_snd_false h1'
  rw [h4, h3, h2, h1]

/-- The loop only returns a list on which a full round is quiet. -/
theorem optimizeFuel_fix {n : Nat} {ir out : List Instr}
    (h : optimizeFuel n ir = some out) : runRound out = (out, false) := by
  induction n generalizing ir with
  | zero => simp [optimizeFuel] at h
  | succ m ih =>
    rw [optimizeFuel_succ] at h
    by_cases hc : (runRound ir).2
    · rw [if_pos hc] at h
      exact ih h
    · rw [if_neg hc] at h
      have hr := runRound_snd_false (by simpa using hc)
      have : out = ir := by
        rw [hr] at h
        simpa using h.symm
      subst this
      exact hr

/-- A list on which a round is quiet is returned unchanged by the loop. -/
theorem optimizeFuel_stable {ir : List Instr} (h : runRound ir = (ir, false))
    (m : Nat) : optimizeFuel (m + 1) ir = some ir := by
  rw [optimizeFuel_succ, h]
  simp

/-- On c4Bad every round reports a change while leaving the list unchanged,
so the loop consumes all fuel. -/
theorem optimizeFuel_c4Bad (n : Nat) : optimizeFuel n c4Bad = none := by
  induction n with
  | zero => rfl
  | succ m ih =>
    rw [optimizeFuel_succ]
    have h : runRound c4Bad = (c4Bad, true) := rfl
    rw [h]
    simpa using ih

theorem cmGet_cons (p : JSVal × JSVal) (m : CMap) (k : JSVal) :
    cmGet (p :: m) k = if p.1 == k then some p.2 else cmGet m k := by
  by_cases h : p.1 == k <;> simp [cmGet, List.find?, h]

theorem cmHas_cons (p : JSVal × JSVal) (m : CMap) (k : JSVal) :
    cmHas (p :: m) k = (p.1 == k || cmHas m k) := by
  by_cases h : p.1 == k <;> simp [cmHas, cmGet_cons, h]

theorem cmSet_cons_self (p : JSVal × JSVal) (m : CMap) (k v : JSVal)
    (hp : (p.1 == k) = true) :
    cmSet (p :: m) k v = (k, v) :: m.map (fun q => if q.1 == k then (k, v) else q) := by
  have hpe : p.1 = k := by simpa using hp
  have hhas : cmHas (p :: m) k = true := by simp [cmHas_cons, hp]
  simp [cmSet, hhas, hpe]

theorem cmSet_cons_ne (p : JSVal × JSVal) (m : CMap) (k v : JSVal)
    (hp : (p.1 == k) = false) :
    cmSet (p :: m) k v = p :: cmSet m k v := by
  have hpe : ¬p.1 = k := by simpa using hp
  have hhas : cmHas (p :: m) k = cmHas m k := by simp [cmHas_cons, hp]
  by_cases hm : cmHas m k
  · simp [cmSet, hhas, hm, hpe]
  · simp [cmSet, hhas, hm, hpe]

theorem cmGet_map_overwrite (m : CMap) (k v : JSVal) :
    cmGet (m.map (fun q => if q.1 == k then (k, v) else q)) k =
      if cmHas m k then some v else none := by
  induction m with
  | nil => simp [cmGet, cmHas, List.find?]
  | cons p m ih =>
    by_cases hp : p.1 == k
    · have hpe : p.1 = k := by simpa using hp
      simp [List.map_cons, hpe, cmGet_cons, cmHas_cons, hp]
    · have hpe : ¬p.1 = k := by simpa using hp
      simp [List.map_cons, hpe, cmGet_cons, cmHas_cons, hp]
      simpa using ih

theorem cmGet_map_overwrite_ne (m : CMap) (k v k' : JSVal) (h : k' ≠ k) :
    cmGet (m.map (fun q => if q.1 == k then (k, v) else q)) k' = cmGet m k' := by
  induction m with
  | nil => simp [cmGet, List.find?]
  | cons p m ih =>
    by_cases hp : p.1 == k
    · have hpe : p.1 = k := by simpa using hp
      have hk : ¬(k == k') := by simpa using (Ne.symm h)
      have hpk' : ¬(p.1 == k') := by
        rw [hpe]
        simpa using (Ne.symm h)
      simp [List.map_cons, hpe, cmGet_cons, hk, hpk']
      simpa using ih
    · have hpe : ¬p.1 = k := by simpa using hp
      have ih' : cmGet (List.map (fun q => if q.1 = k then (k, v) else q) m) k' = cmGet m k' := by
        simpa using ih
      simp [List.map_cons, hpe, cmGet_cons, ih']

/-- Map.get after Map.set at the same key. -/
theorem cmGet_cmSet_self (m : CMap) (k v : JSVal) :
    cmGet (cmSet m k v) k = some v := by
  induction m with
  | nil => simp [cmSet, cmHas, cmGet, List.find?]
  | cons p m ih =>
    by_cases hp : p.1 == k
    · rw [cmSet_cons_self p m k v hp, cmGet_cons]
      simp
    · rw [cmSet_cons_ne p m k v (by simpa using hp), cmGet_cons]
      simp [hp, ih]

/-- Map.get after Map.set at a different key. -/
theorem cmGet_cmSet_ne (m : CMap) (k v k' : JSVal) (h : k' ≠ k) :
    cmGet (cmSet m k v) k' = cmGet m k' := by
  induction m with
  | nil =>
    have hb : ¬(k == k') := by simpa using (Ne.symm h)
    simp [cmSet, cmHas, cmGet, List.find?, hb]
  | cons p m ih =>
    by_cases hp : p.1 == k
    · rw [cmSet_cons_self p m k v hp]
      rw [cmGet_cons, cmGet_cons]
      have hpe : p.1 = k := by simpa using hp
      have hk : ¬(k == k') := by simpa using (Ne.symm h)
      have hpk' : ¬(p.1 == k') := by
        rw [hpe]
        simpa using (Ne.symm h)
      simp [hk, hpk']
      simpa using cmGet_map_overwrite_ne m k v k' h
    · rw [cmSet_cons_ne p m k v (by simpa using hp), cmGet_cons, cmGet_cons, ih]

/-- What constant propagation does to a CONST with a string destination: the
destination is recorded first, so the substitution step rewrites the
destination operand to the recorded value, and the value operand itself is
substituted under the updated map. -/
theorem cpGo_const_step (m : CMap) (v : JSVal) (t : String) (rest : List Instr) :
    cpGo m (⟨"CONST", [v, JSVal.str t]⟩ :: rest) =
      (⟨"CONST", [cpSubstArg (cmSet m (JSVal.str t) v) v, v]⟩ ::
        (cpGo (cmSet m (JSVal.str t) v) rest).1, true) := by
  have hhit : cpArgHit (cmSet m (JSVal.str t) v) (JSVal.str t) = true := by
    simp [cpArgHit, cmHas, cmGet_cmSet_self]
  have hsub : cpSubstArg (cmSet m (JSVal.str t) v) (JSVal.str t) = v := by
    simp [cpSubstArg, cmGet_cmSet_self]
  simp [cpGo, argN, cpSubstInstr, hhit, hsub]

/-- What constant propagation does to a STORE whose source is a tracked
constant: destination and source operands both end up as the stored value. -/
theorem cpGo_store_step (m : CMap) (s d : String) (w : JSVal) (rest : List Instr)
    (h : cmGet m (JSVal.str s) = some w) :
    cpGo m (⟨"STORE", [JSVal.str s, JSVal.str d]⟩ :: rest) =
      (⟨"STORE", [w, w]⟩ :: (cpGo (cmSet m (JSVal.str d) w) rest).1, true) := by
  have hget : cmGet (cmSet m (JSVal.str d) w) (JSVal.str s) = some w := by
    by_cases hsd : (JSVal.str s) = (JSVal.str d)
    · rw [hsd]
      exact cmGet_cmSet_self m (JSVal.str d) w
    · rw [cmGet_cmSet_ne m (JSVal.str d) w (JSVal.str s) hsd]
      exact h
  have hdget : cmGet (cmSet m (JSVal.str d) w) (JSVal.str d) = some w :=
    cmGet_cmSet_self m (JSVal.str d) w
  have hhit : cpArgHit (cmSet m (JSVal.str d) w) (JSVal.str d) = true := by
    simp [cpArgHit, cmHas, hdget]
  simp [cpGo, argN, cmHas, h, cpSubstInstr, cpArgHit, cpSubstArg, hget, hdget, hhit]

/-- The removal loop of dead-code elimination is a filter by the drop test,
and the change flag is whether anything was dropped. -/
theorem dceLoop_eq_filter (used : List String) (jumps : List JSVal) (l : List Instr) :
    dceLoop used jumps l =
      (l.filter (fun i => !dceDrop used jumps i), l.any (dceDrop used jumps)) := by
  induction l with
  | nil => rfl
  | cons i rest ih =>
    by_cases h : dceDrop used jumps i <;>
      simp [dceLoop, ih, h, List.filter_cons, List.any_cons]

theorem mem_usedArgsOf (i : Instr) (s : String) :
    s ∈ usedArgsOf i ↔ (JSVal.str s ∈ i.args ∧ startsWithT s = true) := by
  unfold usedArgsOf
  rw [List.mem_filterMap]
  constructor
  · rintro ⟨a, ha, hfa⟩
    cases a with
    | str x =>
      have hfa' : (if startsWithT x then some x else none) = some s := hfa
      by_cases hx : startsWithT x
      · rw [if_pos hx] at hfa'
        obtain rfl : x = s := by simpa using hfa'
        exact ⟨ha, hx⟩
      · rw [if_neg hx] at hfa'
        exact absurd hfa' (by simp)
    | num q => exact absurd hfa (by simp)
    | jsbool b => exact absurd hfa (by simp)
    | jsnull => exact absurd hfa (by simp)
    | undef => exact absurd hfa (by simp)
    | arr xs => exact absurd hfa (by simp)
  · rintro ⟨hmem, hsw⟩
    exact ⟨JSVal.str s, hmem, by simp [hsw]⟩

theorem mem_foldl_usedArgs (l : List Instr) (acc : List String) (s : String) :
    s ∈ l.foldl (fun a i => a ++ usedArgsOf i) acc ↔
      (s ∈ acc ∨ ∃ i ∈ l, s ∈ usedArgsOf i) := by
  induction l generalizing acc with
  | nil => simp
  | cons i rest ih =>
    rw [List.foldl_cons, ih]
    simp [List.mem_append, or_assoc]

/-- The marked-used set, characterized: exactly the "t"-prefixed strings that
occur among the arguments of some instruction that is neither a STORE nor a
CONST. -/
theorem mem_collectUsedVars (ir : List Instr) (s : String) :
    s ∈ collectUsedVars ir ↔
      (startsWithT s = true ∧
        ∃ i ∈ ir, i.op ≠ "STORE" ∧ i.op ≠ "CONST" ∧ JSVal.str s ∈ i.args) := by
  unfold collectUsedVars
  rw [mem_foldl_usedArgs]
  simp only [List.mem_filter, mem_usedArgsOf]
  constructor
  · rintro (h | ⟨i, ⟨hi, hp⟩, hmem, hsw⟩)
    · simp at h
    · have hp' : ¬i.op = "STORE" ∧ ¬i.op = "CONST" := by simpa using hp
      exact ⟨hsw, i, hi, hp'.1, hp'.2, hmem⟩
  · rintro ⟨hsw, i, hi, h1, h2, hmem⟩
    exact Or.inr ⟨i, ⟨hi, by simp [h1, h2]⟩, hmem, hsw⟩

/-- The operator branches of scanToken when the operator is not followed by a
further '=': the kind is the two-character kind, the recorded text is the
one-character text, and two characters are consumed. -/
theorem lexOpPair_not_eq (kind2 kind1 twoText oneText : String) (r2 : List Char)
    (line col : Nat) (h : r2.head? ≠ some '=') :
    lexOpPair kind2 kind1 twoText oneText ('=' :: r2) line col =
      (addTokenAt kind2 oneText line (col + 2), r2, col + 2) := by
  cases r2 with
  | nil => rfl
  | cons c cs =>
    have hc : c ≠ '=' := by simpa using h
    unfold lexOpPair
    split
    · rename_i r2' r3 heq
      obtain rfl : r3 = c :: cs := (List.cons.inj heq).2.symm
      split
      · rename_i r4 heq2
        injection heq2 with h1 h2
        exact absurd h1 hc
      · rfl
    · rename_i x
      exact absurd rfl (x (c :: cs))

/-- Identifier and keyword tokens point at the lexeme's first character. -/
theorem lexIdentToken_column (c : Char) (rest : List Char) (line col : Nat) :
    (lexIdentToken c rest line col).1.column = col := by
  unfold lexIdentToken addTokenAt
  simp [String.length]
  omega

/-- Number tokens point at the lexeme's first character. -/
theorem lexNumberToken_column (c : Char) (rest : List Char) (line col : Nat) :
    (lexNumberToken c rest line col).1.column = col := by
  unfold lexNumberToken addTokenAt
  simp [String.length]
  omega

/-! The claims. -/

/-- C1: for every source whose tokenization and parsing succeed but whose
semantic analysis returns a non-empty error list, compile returns
success = false with exactly one diagnostic per semantic error, each tagged
phase "Semantic Analysis" and carrying no line or column; the pipeline stops
before IR generation (ir, optimizedIr and code are absent) while tokens and
ast remain attached to the result. -/
theorem compile_semantic_errors_abort (fuel : Nat) (src : String)
    (toks : List Token) (ast : ASTNode) (errs : List String) (st' : AnState)
    (htok : tokenize src = Except.ok toks)
    (hparse : parse toks = Except.ok ast)
    (han : analyze initAnState ast = (errs, st'))
    (hne : errs ≠ []) :
    compile fuel src = some
      (⟨false, some toks, some ast, none, none, none,
        errs.map (fun m => ⟨"Semantic Analysis", m, none, none⟩)⟩, st') := by
  obtain ⟨e, es, rfl⟩ : ∃ e es, errs = e :: es := by
    cases errs with
    | nil => exact absurd rfl hne
    | cons e es => exact ⟨e, es, rfl⟩
  simp [compile, compileSt, htok, hparse, han]

/-- C1 witness: compile "var x; var x;" fails with exactly one Semantic
Analysis diagnostic reporting the duplicate declaration of x, no position,
tokens and AST attached, no IR or code. -/
theorem compile_semantic_errors_abort_witness :
    compile 10 "var x; var x;" = some
      (⟨false, some c1Tokens, some c1Ast, none, none, none,
        [⟨"Semantic Analysis", "Variable 'x' already declared in this scope",
          none, none⟩]⟩,
       ⟨[[]], [("x", ⟨"variable", false, false⟩)]⟩) :=
  compile_semantic_errors_abort 10 "var x; var x;" c1Tokens c1Ast
    ["Variable 'x' already declared in this scope"]
    ⟨[[]], [("x", ⟨"variable", false, false⟩)]⟩
    rfl rfl rfl (by simp)

/-- C2 counterexample: optimize on [CONST(2,t0), CONST(3,t1), ADD(t0,t1,t2)]
returns the empty list, not the claimed one-instruction list [CONST(5,t2)]:
dead-code elimination also removes CONST(5,t2), because t2 is itself an
unused reserved-prefix temporary. -/
theorem optimize_fold_example_counterexample :
    optimizeFuel 2 c2Input = some [] ∧
    some ([] : List Instr) ≠ some [⟨"CONST", [JSVal.num 5, JSVal.str "t2"]⟩] :=
  ⟨rfl, by decide⟩

/-- C2 amended: constant folding rewrites the ADD to CONST(5,t2), and the
following dead-code elimination then drops all three CONST instructions
(t0, t1 and t2 are all unused temporaries), so optimize returns [] at every
sufficient fuel. -/
theorem optimize_fold_example_amended :
    constantFolding c2Input =
      ([⟨"CONST", [JSVal.num 2, JSVal.str "t0"]⟩,
        ⟨"CONST", [JSVal.num 3, JSVal.str "t1"]⟩,
        ⟨"CONST", [JSVal.num 5, JSVal.str "t2"]⟩], true) ∧
    deadCodeElimination
      [⟨"CONST", [JSVal.num 2, JSVal.str "t0"]⟩,
       ⟨"CONST", [JSVal.num 3, JSVal.str "t1"]⟩,
       ⟨"CONST", [JSVal.num 5, JSVal.str "t2"]⟩] = ([], true) ∧
    ∀ n, optimizeFuel (n + 2) c2Input = some [] := by
  have hadd : (2 : Rat) + 3 = 5 := by norm_num
  have h1 : constantFolding c2Input =
      ([⟨"CONST", [JSVal.num 2, JSVal.str "t0"]⟩,
        ⟨"CONST", [JSVal.num 3, JSVal.str "t1"]⟩,
        ⟨"CONST", [JSVal.num ((2 : Rat) + 3), JSVal.str "t2"]⟩], true) := rfl
  rw [hadd] at h1
  refine ⟨h1, by exact rfl, ?_⟩
  intro n
  rw [optimizeFuel_succ]
  have h1 : runRound c2Input = ([], true) := rfl
  rw [h1]
  simpa using optimizeFuel_stable rfl n

/-- C3 counterexample: in [CONST(5,t0), STORE(t0,x)] the temporary t0 occurs
as the STORE's source argument (not as a destination), yet the pass drops
CONST(5,t0) — STORE arguments are never marked used; and a store to the
named variable "total" is dropped because the reserved-prefix test is just
a leading letter 't'. -/
theorem dce_usedness_counterexample :
    deadCodeElimination
      [⟨"CONST", [JSVal.num 5, JSVal.str "t0"]⟩,
       ⟨"STORE", [JSVal.str "t0", JSVal.str "x"]⟩] =
      ([⟨"STORE", [JSVal.str "t0", JSVal.str "x"]⟩], true) ∧
    deadCodeElimination
      [⟨"CONST", [JSVal.num 5, JSVal.str "t0"]⟩,
       ⟨"STORE", [JSVal.str "t0", JSVal.str "total"]⟩] = ([], true) :=
  ⟨rfl, rfl⟩

/-- C3 amended: an operand counts as used exactly when it is a string
starting with 't' that appears among the arguments of some instruction whose
opcode is neither STORE nor CONST (all arguments of STORE and CONST,
including the STORE's source, are ignored); the pass keeps exactly the
instructions the drop test rejects: a STORE or CONST whose string destination
starts with 't' and is not so used — which includes stores to named
variables whose names begin with 't' — and a LABEL no jump targets. -/
theorem dce_characterization_amended :
    (∀ (ir : List Instr) (s : String),
       s ∈ collectUsedVars ir ↔
         (startsWithT s = true ∧
           ∃ i ∈ ir, i.op ≠ "STORE" ∧ i.op ≠ "CONST" ∧ JSVal.str s ∈ i.args)) ∧
    (∀ ir : List Instr,
       deadCodeElimination ir =
         (ir.filter (fun i =>
            !dceDrop (collectUsedVars ir) (collectJumpTargets ir) i),
          ir.any (dceDrop (collectUsedVars ir) (collectJumpTargets ir)))) :=
  ⟨mem_collectUsedVars,
   fun ir => dceLoop_eq_filter (collectUsedVars ir) (collectJumpTargets ir) ir⟩

/-- C4 counterexample: optimize is not total — on [CONST("x","x")] no amount
of fuel makes the pass loop reach a quiet round, so the TypeScript
while(changed) loop never exits. -/
theorem optimize_termination_counterexample :
    ¬ ∃ n out, optimizeFuel n c4Bad = some out := by
  rintro ⟨n, out, h⟩
  rw [optimizeFuel_c4Bad] at h
  exact Option.noConfusion h

/-- C4 amended: the four-pass round on [CONST("x","x")] returns the list
UNCHANGED while still reporting a change (constant propagation substitutes
the string argument "x" by the recorded value "x" and counts that as a
change), so the fixpoint loop runs forever: optimize diverges on this input
and is therefore not a total function. -/
theorem optimize_termination_amended :
    runRound c4Bad = (c4Bad, true) ∧ ∀ n, optimizeFuel n c4Bad = none :=
  ⟨rfl, optimizeFuel_c4Bad⟩

/-- C5: optimize is idempotent wherever it is defined — whenever the
fixpoint loop returns a list, rerunning optimize on that list returns it
unchanged (a full round on the returned list is quiet). -/
theorem optimize_idempotent (n : Nat) (ir out : List Instr)
    (h : optimizeFuel n ir = some out) (m : Nat) :
    optimizeFuel (m + 1) out = some out :=
  optimizeFuel_stable (optimizeFuel_fix h) m

/-- C5 witness: optimize [CONST(1,x)] = [CONST(1,1)], and optimize of
[CONST(1,1)] is [CONST(1,1)] again. -/
theorem optimize_idempotent_witness :
    optimizeFuel 1 [⟨"CONST", [JSVal.num 1, JSVal.num 1]⟩] =
      some [⟨"CONST", [JSVal.num 1, JSVal.num 1]⟩] :=
  optimize_idempotent 3 [⟨"CONST", [JSVal.num 1, JSVal.str "x"]⟩]
    [⟨"CONST", [JSVal.num 1, JSVal.num 1]⟩] rfl 0

/-- C6: contrary to the claim, an assignment whose left side is not a bare
identifier does NOT make parse fail: Parser.assignment constructs the
SyntaxError "Invalid assignment target." but never throws it, so "a.b = 1;"
parses successfully to the member expression alone (the "= 1" is silently
discarded), and "(x) = 1;" parses to the parenthesized group alone. -/
theorem invalid_assignment_silently_parses :
    parseSource "a.b = 1;" =
      some (ASTNode.program
        [ASTNode.expressionStatement
          (ASTNode.memberExpression (ASTNode.ident "a") "b")]) ∧
    parseSource "(x) = 1;" =
      some (ASTNode.program
        [ASTNode.expressionStatement (ASTNode.group (ASTNode.ident "x"))]) :=
  ⟨rfl, rfl⟩

/-- C7 counterexample: tokenizing "==" yields a token whose recorded column
is 2, the lexeme's SECOND character, not its first (the lexeme starts at
column 1): the recorded text is the one-character form "=", so the
current-column-minus-text-length formula lands one short of the start. -/
theorem twochar_token_column_counterexample :
    tokenize "==" = Except.ok [⟨"EQUAL_EQUAL", "=", 1, 2⟩, ⟨"EOF", "", 1, 3⟩] ∧
    (⟨"EQUAL_EQUAL", "=", 1, 2⟩ : Token).column ≠ 1 :=
  ⟨rfl, by decide⟩

/-- C7 amended: the recorded column is the scanner's current column minus
the recorded TEXT's length.  For identifiers, keywords and numeric literals
the text equals the lexeme, so the column points at the lexeme's first
character; for the two-character operators the recorded text is the
one-character form, so the column is start + 1: the lexeme's second
character. -/
theorem token_column_amended :
    (∀ (c : Char) (rest : List Char) (line col : Nat),
       (lexIdentToken c rest line col).1.column = col) ∧
    (∀ (c : Char) (rest : List Char) (line col : Nat),
       (lexNumberToken c rest line col).1.column = col) ∧
    (∀ (kind2 kind1 twoText oneText : String) (r2 : List Char) (line col : Nat),
       oneText.length = 1 → r2.head? ≠ some '=' →
       (lexOpPair kind2 kind1 twoText oneText ('=' :: r2) line col).1.column =
         col + 1) := by
  refine ⟨lexIdentToken_column, lexNumberToken_column, ?_⟩
  intro kind2 kind1 twoText oneText r2 line col hlen hne
  rw [lexOpPair_not_eq kind2 kind1 twoText oneText r2 line col hne]
  simp [addTokenAt, hlen]

/-- C8 counterexample: compiling the same semantically valid source twice on
one Compiler instance does not succeed twice — the second run reports a
duplicate declaration, because analyze does not reset the scope stack. -/
theorem analyzer_state_reuse_counterexample :
    ((compile 5 c8Src).bind (fun p => compileSt 5 p.2 c8Src)).map
        (fun p => p.1.success) = some false ∧
    some false ≠ some true :=
  ⟨rfl, by decide⟩

/-- C8 amended: analyze resets only its error list; the scope stack persists
across calls on one instance.  The first compile of "var x = 1; x = 2;"
succeeds with no diagnostics and leaves x in the analyzer's global scope;
the second compile of the same source on the resulting state fails with
exactly one Semantic Analysis diagnostic reporting the duplicate declaration
of x. -/
theorem analyzer_state_reuse_amended :
    (compile 5 c8Src).map (fun p => (p.1.success, p.1.errors, p.2)) =
      some (true, [],
        (⟨[[]], [("x", ⟨"variable", true, false⟩)]⟩ : AnState)) ∧
    ((compile 5 c8Src).bind (fun p => compileSt 5 p.2 c8Src)).map
        (fun p => (p.1.success, p.1.errors)) =
      some (false,
        [⟨"Semantic Analysis", "Variable 'x' already declared in this scope",
          none, none⟩]) :=
  ⟨rfl, rfl⟩

/-- C9 counterexample: the claim that every CONST(v,t) with string
destination t comes out as CONST(v,v) fails when v is itself the name of a
tracked constant: in [CONST(5,x), CONST("x",t1)] the second instruction
comes out as CONST(5,"x") (its value operand "x" is substituted by 5), not
as CONST("x","x"). -/
theorem constprop_const_selfdest_counterexample :
    constantPropagation
      [⟨"CONST", [JSVal.num 5, JSVal.str "x"]⟩,
       ⟨"CONST", [JSVal.str "x", JSVal.str "t1"]⟩] =
      ([⟨"CONST", [JSVal.num 5, JSVal.num 5]⟩,
        ⟨"CONST", [JSVal.num 5, JSVal.str "x"]⟩], true) ∧
    (⟨"CONST", [JSVal.num 5, JSVal.str "x"]⟩ : Instr) ≠
      ⟨"CONST", [JSVal.str "x", JSVal.str "x"]⟩ :=
  ⟨rfl, by decide⟩

/-- C9 amended: a CONST(v,t) with string destination t is recorded first and
then substituted under the updated map, so it comes out as CONST(v', v)
where v' is the substitution of v (v' = v whenever v is not itself a tracked
name — e.g. CONST(1,t3) becomes CONST(1,1)); a STORE(s,d) whose source s is
recorded as constant w comes out as STORE(w,w): both its source and its
destination name are replaced by the stored value. -/
theorem constprop_dest_substitution_amended :
    (∀ (m : CMap) (v : JSVal) (t : String) (rest : List Instr),
       cpGo m (⟨"CONST", [v, JSVal.str t]⟩ :: rest) =
         (⟨"CONST", [cpSubstArg (cmSet m (JSVal.str t) v) v, v]⟩ ::
           (cpGo (cmSet m (JSVal.str t) v) rest).1, true)) ∧
    (∀ (m : CMap) (s d : String) (w : JSVal) (rest : List Instr),
       cmGet m (JSVal.str s) = some w →
       cpGo m (⟨"STORE", [JSVal.str s, JSVal.str d]⟩ :: rest) =
         (⟨"STORE", [w, w]⟩ :: (cpGo (cmSet m (JSVal.str d) w) rest).1, true)) ∧
    constantPropagation [⟨"CONST", [JSVal.num 1, JSVal.str "t3"]⟩] =
      ([⟨"CONST", [JSVal.num 1, JSVal.num 1]⟩], true) :=
  ⟨cpGo_const_step, cpGo_store_step, rfl⟩

/-- C10: a two-character operator not followed by a further '=' is emitted
with the two-character kind but the one-character text; consequently == and
!= parse into BinaryExpressions carrying operator "=" and "!" which the IR
generator rejects as unknown, while <= and >= lower to LT and GT. -/
theorem twochar_operator_text_bug :
    (∀ (kind2 kind1 twoText oneText : String) (r2 : List Char) (line col : Nat),
       r2.head? ≠ some '=' →
       lexOpPair kind2 kind1 twoText oneText ('=' :: r2) line col =
         (addTokenAt kind2 oneText line (col + 2), r2, col + 2)) ∧
    tokenize "==" = Except.ok [⟨"EQUAL_EQUAL", "=", 1, 2⟩, ⟨"EOF", "", 1, 3⟩] ∧
    tokenize "!=" = Except.ok [⟨"BANG_EQUAL", "!", 1, 2⟩, ⟨"EOF", "", 1, 3⟩] ∧
    tokenize "<=" = Except.ok [⟨"LESS_EQUAL", "<", 1, 2⟩, ⟨"EOF", "", 1, 3⟩] ∧
    tokenize ">=" = Except.ok [⟨"GREATER_EQUAL", ">", 1, 2⟩, ⟨"EOF", "", 1, 3⟩] ∧
    parseSource "x == y;" =
      some (ASTNode.program
        [ASTNode.expressionStatement
          (ASTNode.binaryExpression "=" (ASTNode.ident "x") (ASTNode.ident "y"))]) ∧
    irGenerate (ASTNode.program
        [ASTNode.expressionStatement
          (ASTNode.binaryExpression "=" (ASTNode.ident "x") (ASTNode.ident "y"))]) =
      Except.error ⟨"Unknown binary operator: =",
        ASTNode.binaryExpression "=" (ASTNode.ident "x") (ASTNode.ident "y")⟩ ∧
    parseSource "x <= y;" =
      some (ASTNode.program
        [ASTNode.expressionStatement
          (ASTNode.binaryExpression "<" (ASTNode.ident "x") (ASTNode.ident "y"))]) ∧
    irGenerate (ASTNode.program
        [ASTNode.expressionStatement
          (ASTNode.binaryExpression "<" (ASTNode.ident "x") (ASTNode.ident "y"))]) =
      Except.ok [⟨"LOAD", [JSVal.str "x", JSVal.str "t0"]⟩,
        ⟨"LOAD", [JSVal.str "y", JSVal.str "t1"]⟩,
        ⟨"LT", [JSVal.str "t0", JSVal.str "t1", JSVal.str "t2"]⟩] ∧
    irGenerate (ASTNode.program
        [ASTNode.expressionStatement
          (ASTNode.binaryExpression ">" (ASTNode.ident "x") (ASTNode.ident "y"))]) =
      Except.ok [⟨"LOAD", [JSVal.str "x", JSVal.str "t0"]⟩,
        ⟨"LOAD", [JSVal.str "y", JSVal.str "t1"]⟩,
        ⟨"GT", [JSVal.str "t0", JSVal.str "t1", JSVal.str "t2"]⟩] :=
  ⟨lexOpPair_not_eq, rfl, rfl, rfl, rfl, rfl, rfl, rfl, rfl, rfl⟩
